import Mathlib

/-!
Verification of the core engine of node-httpstream (`lib/httpstream.js`),
the `ReliableHttpStream` readable stream that fetches an HTTP resource and
transparently resumes after transient failures via byte-range requests.

The JavaScript object is shallowly embedded as a state record `St` whose
fields mirror the `rs_*` instance fields of the source, plus the observable
outputs (chunks pushed downstream, end/error notifications) and a few ghost
booleans that record which asynchronous callbacks of the injected HTTP
collaborator are currently outstanding.  Each asynchronous entry point of the
source (`_read`, the `client.get` callback, the request `result` event, the
retry timer, the source `readable` event, the source `end` event, `abort`)
becomes one event of an `Ev` type, and `step` runs the corresponding handler,
translated line by line from the source.  `evOk` restricts traces to those the
Node collaborators can actually produce (a callback fires only while it is
outstanding, a canceled request never produces a successful result, a
destroyed response body emits no further events); `wfB` extends this to
traces.

The MD5 hash is abstracted as a perfect hash: the running hash state
`rs_md5` is embedded as the list of all bytes fed to it (`md5acc`), and the
digest of that state is the list itself, so the `content-md5` header value is
an `Option (List Nat)` compared for list equality.  All the checksum logic
of the source is about the comparison, not about MD5 itself, so this
abstraction is faithful to the control flow.
-/

namespace HttpStream

/-- An error as surfaced by `internalError`.  `conn` is an error delivered by
the `client.get` callback (a connection-level failure), `http` an error
delivered with the request `result` event (it carries the optional HTTP
status code of the response), and the other two are the protocol errors the
stream itself constructs.  The `id` fields distinguish concrete error
instances so that a theorem can state that the surfaced error is the last
underlying failure. -/
inductive Err where
  | conn (id : Nat)
  | http (statusCode : Option Nat) (id : Nat)
  | etagMismatch
  | md5Mismatch (expected got : List Nat)
deriving Repr, DecidableEq

/-- A failure delivered with the request `result` event (`err2` in the
source): an optional HTTP status code plus an identifier. -/
structure HFail where
  statusCode : Option Nat
  id : Nat
deriving Repr, DecidableEq

/-- The headers of a successful response, as consumed by the source:
`content-length` (absent or unparsable is embedded as `none`), `etag` and
`content-md5`.  The md5 value is a digest in the perfect-hash model, hence a
byte list. -/
structure Headers where
  contentLength : Option Nat
  etag : Option String
  contentMd5 : Option (List Nat)
deriving Repr, DecidableEq

/-- The state of one `ReliableHttpStream`.  The first block of fields mirrors
the `rs_*` fields of the constructor; `retryPolicy` is the configured number
of retries of the node-retry policy and `retriesLeft` the number of grants
remaining in the current retry operation (`rs_retry`).  `expMd5`, `expLen`,
`expEtag` are the metadata captured from the first response (`rs_exp_md5`,
`rs_exp_len`, `rs_exp_etag`); `expLen = none` means not yet captured.  The
second block records the observable output: `pushed` is the list of chunks
handed to `push`, `endCount` counts `push(null)` calls, `errCount` counts
`emit error` calls, `issued` logs for each `client.get` call the value of the
range header (`none` when the header was omitted, `some k` for
`bytes=k-`).  The third block are ghost fields gating environment events:
whether a `client.get` callback or a `result` event is outstanding, whether
the current request was aborted (`rs_request.abort()`) or the current
response destroyed (`rs_response.destroy()`), whether a node-retry timer is
pending, whether `pump` is waiting on a `readable` event, and whether the
current source already emitted `end`. -/
structure St where
  retryPolicy : Nat
  nbytesread : Nat
  md5acc : List Nat
  hasRequest : Bool
  hasResponse : Bool
  aborted : Bool
  requestPending : Bool
  error : Option Err
  reading : Bool
  retriesLeft : Nat
  expMd5 : Option (List Nat)
  expLen : Option Nat
  expEtag : Option String
  pushed : List (List Nat)
  endCount : Nat
  errCount : Nat
  issued : List (Option Nat)
  getOutstanding : Bool
  resultOutstanding : Bool
  reqCanceled : Bool
  respDestroyed : Bool
  retryScheduled : Bool
  waitingReadable : Bool
  srcEnded : Bool
deriving Repr, DecidableEq

/-- The state of a freshly constructed stream with retry policy `pol`
(the constructor of the source; `retries: 3` is the default policy). -/
def init (pol : Nat) : St :=
  { retryPolicy := pol, nbytesread := 0, md5acc := [], hasRequest := false,
    hasResponse := false, aborted := false, requestPending := false,
    error := none, reading := false, retriesLeft := 0, expMd5 := none,
    expLen := none, expEtag := none, pushed := [], endCount := 0,
    errCount := 0, issued := [], getOutstanding := false,
    resultOutstanding := false, reqCanceled := false, respDestroyed := false,
    retryScheduled := false, waitingReadable := false, srcEnded := false }

/-- `stopAndCleanUp`: aborts the in-flight request handle and destroys the
live response, when present.  The handle fields themselves are not nulled by
the source; only the ghost cancellation flags change. -/
def stopAndCleanUp (s : St) : St :=
  { s with reqCanceled := s.reqCanceled || s.hasRequest,
           respDestroyed := s.respDestroyed || s.hasResponse }

/-- `internalError`: records `rs_error`, emits the `error` event and cleans
up. -/
def internalError (s : St) (e : Err) : St :=
  stopAndCleanUp { s with error := some e, errCount := s.errCount + 1 }

/-- `abort`: a no-op when already aborted, otherwise records `rs_aborted`
and cleans up. -/
def abortFn (s : St) : St :=
  if s.aborted = true then s else stopAndCleanUp { s with aborted := true }

/-- `pump`: one iteration of the pump loop.  `bufOpt` is the value returned
by `rs_source.read()`: `none` makes the pump subscribe to the next
`readable` event, `some buf` updates the byte count and the hash, clears
`rs_reading` and pushes the chunk downstream. -/
def pump (s : St) (bufOpt : Option (List Nat)) : St :=
  match bufOpt with
  | none => { s with waitingReadable := true }
  | some buf =>
      { s with nbytesread := s.nbytesread + buf.length,
               md5acc := s.md5acc ++ buf,
               reading := false,
               pushed := s.pushed ++ [buf] }

/-- The value of the range header for a request issued at consumed-byte
offset `k`: omitted (`none`) when `k = 0`, `bytes=k-` otherwise. -/
def rangeFor (k : Nat) : Option Nat :=
  if 0 < k then some k else none

/-- `makeRequest`: bails out when aborted, otherwise issues one `client.get`
with the range header omitted exactly when no bytes have been consumed, and
`bytes=rs_nbytesread-` otherwise. -/
def makeRequest (s : St) : St :=
  if s.aborted = true then { s with reading := false }
  else
    { s with requestPending := true, getOutstanding := true,
             issued := s.issued ++ [rangeFor s.nbytesread] }

/-- `_read`: the demand signal from the stream machinery.  Ignored after
abort or error or while a read is already in progress; pumps when a response
is live; returns when a request is already pending; otherwise creates a
fresh node-retry operation with the full configured budget and makes the
first attempt synchronously. -/
def readFn (s : St) (bufOpt : Option (List Nat)) : St :=
  if s.aborted = true then s
  else if s.error.isSome = true then s
  else if s.reading = true then s
  else
    let s1 : St := { s with reading := true }
    if s1.hasResponse = true then pump s1 bufOpt
    else if s1.requestPending = true then s1
    else makeRequest { s1 with retriesLeft := s1.retryPolicy }

/-- The `client.get` callback.  `none` means the request started: the
request handle is stored, `rs_request_pending` cleared, and either the
pending abort is honored or the `result` handler is attached.  `some id`
means the client reported error `id`, which is fatal to the stream. -/
def getCbFn (s : St) (r : Option Nat) : St :=
  let s0 : St := { s with getOutstanding := false }
  match r with
  | some e => internalError { s0 with reading := false } (Err.conn e)
  | none =>
      let s1 : St := { s0 with hasRequest := true, reqCanceled := false,
                               requestPending := false }
      if s1.aborted = true then stopAndCleanUp s1
      else { s1 with resultOutstanding := true }

/-- Classification of a `result` failure in the source: retryable when the
status code is `undefined` (a connection-level failure) or at least 500. -/
def retryableB (f : HFail) : Bool :=
  match f.statusCode with
  | none => true
  | some c => decide (500 ≤ c)

/-- The request `result` event.  A retryable failure with budget remaining
consumes one retry grant and schedules a new attempt; any other failure is
fatal.  A successful response is stored, its etag is validated against the
captured one, the metadata is captured if this is the first response, the
`end` listener is attached and the pump started (`bufOpt` is the value of
the first `source.read()`). -/
def resultFn (s : St) (r : HFail ⊕ Headers) (bufOpt : Option (List Nat)) :
    St :=
  let s0 : St := { s with resultOutstanding := false }
  match r with
  | Sum.inl f =>
      if retryableB f = true ∧ 0 < s0.retriesLeft then
        { s0 with hasRequest := false, retriesLeft := s0.retriesLeft - 1,
                  retryScheduled := true }
      else
        internalError { s0 with reading := false }
          (Err.http f.statusCode f.id)
  | Sum.inr h =>
      let s1 : St := { s0 with hasResponse := true, respDestroyed := false,
                               srcEnded := false }
      if s1.expEtag.isSome = true ∧ s1.expEtag ≠ h.etag then
        internalError { s1 with reading := false } Err.etagMismatch
      else
        let s2 : St :=
          if s1.expLen.isNone = true then
            { s1 with expMd5 := h.contentMd5,
                      expLen := some (h.contentLength.getD 0),
                      expEtag := h.etag }
          else s1
        pump s2 bufOpt

/-- The source `end` event handler `responseEnd`.  When fewer bytes than the
declared length were consumed the close was premature: the listeners and
handles are dropped and `_read` is re-entered, which starts a fresh retry
operation and a new request at the current offset, with no error and no
backoff.  Otherwise the digest is computed and compared against the declared
md5 when one was captured; a mismatch is fatal, otherwise `push(null)` ends
the stream. -/
def responseEnd (s : St) : St :=
  if s.nbytesread < s.expLen.getD 0 then
    readFn { s with waitingReadable := false, hasRequest := false,
                    hasResponse := false, reqCanceled := false,
                    respDestroyed := false, srcEnded := false,
                    reading := false } none
  else
    match s.expMd5 with
    | some m =>
        if m ≠ s.md5acc then
          internalError s (Err.md5Mismatch m s.md5acc)
        else { s with endCount := s.endCount + 1 }
    | none => { s with endCount := s.endCount + 1 }

/-- The asynchronous events that drive one stream: a demand signal
(`_read`, carrying the value a possible `source.read()` would return), the
`client.get` callback, the request `result` event (also carrying the first
`source.read()` value for the pump it starts), the node-retry timer, the
source `readable` event, the source `end` event, and an `abort` call. -/
inductive Ev where
  | read (bufOpt : Option (List Nat))
  | getCb (r : Option Nat)
  | result (r : HFail ⊕ Headers) (bufOpt : Option (List Nat))
  | retryTimer
  | readable (bufOpt : Option (List Nat))
  | srcEnd
  | abortEv
deriving Repr, DecidableEq

/-- One step of the machine: dispatch an event to its handler. -/
def step (s : St) (e : Ev) : St :=
  match e with
  | Ev.read b => readFn s b
  | Ev.getCb r => getCbFn s r
  | Ev.result r b => resultFn s r b
  | Ev.retryTimer => makeRequest { s with retryScheduled := false }
  | Ev.readable b => pump { s with waitingReadable := false } b
  | Ev.srcEnd => responseEnd { s with srcEnded := true }
  | Ev.abortEv => abortFn s

/-- Which events the environment can deliver in a given state: a consumer
may signal demand or abort at any time; each collaborator callback fires
only while outstanding; an aborted request never delivers a successful
result (though it may deliver a failure); a destroyed response body emits no
further `readable` or `end`, and a source emits `end` at most once. -/
def evOk (s : St) : Ev → Bool
  | Ev.read _ => true
  | Ev.getCb _ => s.getOutstanding
  | Ev.result r _ =>
      s.resultOutstanding &&
        (match r with
         | Sum.inl _ => true
         | Sum.inr _ => !s.reqCanceled)
  | Ev.retryTimer => s.retryScheduled
  | Ev.readable _ => s.waitingReadable && !s.respDestroyed && !s.srcEnded
  | Ev.srcEnd => s.hasResponse && !s.respDestroyed && !s.srcEnded
  | Ev.abortEv => true

/-- Run a trace of events. -/
def run (s : St) : List Ev → St
  | [] => s
  | e :: tr => run (step s e) tr

/-- Well-formedness of a trace from a state: every event is deliverable in
the state it fires in. -/
def wfB (s : St) : List Ev → Bool
  | [] => true
  | e :: tr => evOk s e && wfB (step s e) tr

/-!
Canonical intermediate states of a healthy session.  `pendingSt` is the
state right after a `client.get` was issued (a request cycle has started and
the callback is outstanding), `awaitSt` the state after the callback
succeeded (the `result` event is outstanding), `streamSt` the state while a
response body is being pumped and the pump waits for `readable`, and
`midSt` the state right after a chunk was pushed (the pump returned, demand
pending).  `bytes` is the list of all bytes consumed so far, `pcs` the list
of chunks pushed so far, `m`, `lenO`/`L` and `t` the captured metadata, and
`iss` the log of issued requests. -/

def pendingSt (pol : Nat) (bytes : List Nat) (pcs : List (List Nat))
    (m : Option (List Nat)) (lenO : Option Nat) (t : Option String)
    (iss : List (Option Nat)) : St :=
  { retryPolicy := pol, nbytesread := bytes.length, md5acc := bytes,
    hasRequest := false, hasResponse := false, aborted := false,
    requestPending := true, error := none, reading := true,
    retriesLeft := pol, expMd5 := m, expLen := lenO, expEtag := t,
    pushed := pcs, endCount := 0, errCount := 0, issued := iss,
    getOutstanding := true, resultOutstanding := false, reqCanceled := false,
    respDestroyed := false, retryScheduled := false, waitingReadable := false,
    srcEnded := false }

def awaitSt (pol : Nat) (bytes : List Nat) (pcs : List (List Nat))
    (m : Option (List Nat)) (lenO : Option Nat) (t : Option String)
    (iss : List (Option Nat)) : St :=
  { retryPolicy := pol, nbytesread := bytes.length, md5acc := bytes,
    hasRequest := true, hasResponse := false, aborted := false,
    requestPending := false, error := none, reading := true,
    retriesLeft := pol, expMd5 := m, expLen := lenO, expEtag := t,
    pushed := pcs, endCount := 0, errCount := 0, issued := iss,
    getOutstanding := false, resultOutstanding := true, reqCanceled := false,
    respDestroyed := false, retryScheduled := false, waitingReadable := false,
    srcEnded := false }

def streamSt (pol : Nat) (bytes : List Nat) (pcs : List (List Nat))
    (m : Option (List Nat)) (L : Nat) (t : Option String)
    (iss : List (Option Nat)) : St :=
  { retryPolicy := pol, nbytesread := bytes.length, md5acc := bytes,
    hasRequest := true, hasResponse := true, aborted := false,
    requestPending := false, error := none, reading := true,
    retriesLeft := pol, expMd5 := m, expLen := some L, expEtag := t,
    pushed := pcs, endCount := 0, errCount := 0, issued := iss,
    getOutstanding := false, resultOutstanding := false, reqCanceled := false,
    respDestroyed := false, retryScheduled := false, waitingReadable := true,
    srcEnded := false }

def midSt (pol : Nat) (bytes : List Nat) (pcs : List (List Nat))
    (m : Option (List Nat)) (L : Nat) (t : Option String)
    (iss : List (Option Nat)) : St :=
  { streamSt pol bytes pcs m L t iss with
      waitingReadable := false, reading := false }

/-!
Driver traces.  `chunkEvs cs` delivers the chunks `cs` of one response body
(each chunk arrives with a `readable` event and is followed by the demand
signal `push` triggers), `segEvs hdr cs` is one full connection segment
(request callback, response with headers `hdr`, body chunks `cs`, then the
server closes the connection), and `sessionEvs` chains segments.
-/

def chunkEvs : List (List Nat) → List Ev
  | [] => []
  | c :: cs => Ev.readable (some c) :: Ev.read none :: chunkEvs cs

def segEvs (hdr : Headers) (cs : List (List Nat)) : List Ev :=
  Ev.getCb none :: Ev.result (Sum.inr hdr) none :: (chunkEvs cs ++ [Ev.srcEnd])

def sessionEvs : List (Headers × List (List Nat)) → List Ev
  | [] => []
  | p :: rest => segEvs p.1 p.2 ++ sessionEvs rest

/-- Total bytes of a list of segments. -/
def segsBytes : List (Headers × List (List Nat)) → List Nat
  | [] => []
  | p :: rest => p.2.flatten ++ segsBytes rest

/-- All chunks of a list of segments, in delivery order. -/
def segsChunks : List (Headers × List (List Nat)) → List (List Nat)
  | [] => []
  | p :: rest => p.2 ++ segsChunks rest

/-- Every close except the final one is premature: after each segment that
is not the last, at least one byte is still to come. -/
def segsProperB : List (Headers × List (List Nat)) → Bool
  | [] => true
  | [_] => true
  | _ :: rest => !(segsBytes rest).isEmpty && segsProperB rest

/-- The global safety invariant of a session.  `term_le` is the property
claims are about (at most one terminal notification); the remaining fields
are the supporting facts needed to preserve it: which callbacks can be
outstanding in which phases, that a session with a surfaced error or a
delivered end has no live callbacks left, and that an aborted session has
canceled its handles. -/
structure Inv (s : St) : Prop where
  term_le : s.endCount + s.errCount ≤ 1
  err_iff : s.errCount = 0 ↔ s.error = none
  wait_resp : s.waitingReadable = true → s.hasResponse = true
  res_req : s.resultOutstanding = true → s.hasRequest = true
  get_read : s.getOutstanding = true → s.reading = true
  res_read : s.resultOutstanding = true → s.reading = true
  sched_read : s.retryScheduled = true → s.reading = true
  get_excl : s.getOutstanding = true → s.resultOutstanding = false
    ∧ s.retryScheduled = false ∧ s.hasResponse = false
  res_excl : s.resultOutstanding = true → s.retryScheduled = false
    ∧ s.hasResponse = false
  sched_excl : s.retryScheduled = true → s.hasResponse = false
  err_locked : s.error.isSome = true → s.getOutstanding = false
    ∧ s.resultOutstanding = false ∧ s.retryScheduled = false
    ∧ (s.hasResponse = true → s.respDestroyed = true)
  end_locked : 1 ≤ s.endCount → s.srcEnded = true ∧ s.hasResponse = true
    ∧ s.getOutstanding = false ∧ s.resultOutstanding = false
    ∧ s.retryScheduled = false
  abort_locked : s.aborted = true →
    (s.hasResponse = true → s.respDestroyed = true)
    ∧ (s.hasRequest = true → s.reqCanceled = true)

/-- A session that has surfaced an error can never again deliver any
notification: no callback is outstanding, the response is destroyed, so
every handler is guarded off. -/
def ErrLocked (s : St) : Prop :=
  s.error.isSome = true ∧ s.getOutstanding = false
  ∧ s.resultOutstanding = false ∧ s.retryScheduled = false
  ∧ (s.hasResponse = true → s.respDestroyed = true)
  ∧ (s.waitingReadable = true → s.hasResponse = true)

/-- A session that has been aborted with its handles canceled can never
push another chunk or deliver the end notification (an error notification
remains possible, which is exactly the flaw the counterexample for claim C8
exhibits). -/
def AbortSafe (s : St) : Prop :=
  s.aborted = true ∧ (s.hasResponse = true → s.respDestroyed = true)
  ∧ (s.resultOutstanding = true → s.reqCanceled = true)
  ∧ (s.waitingReadable = true → s.hasResponse = true)

theorem run_append (s : St) (l1 l2 : List Ev) :
    run s (l1 ++ l2) = run (run s l1) l2 := by
  induction l1 generalizing s with
  | nil => rfl
  | cons e tr ih => simp [run, ih]

theorem wfB_append (s : St) (l1 l2 : List Ev) :
    wfB s (l1 ++ l2) = (wfB s l1 && wfB (run s l1) l2) := by
  induction l1 generalizing s with
  | nil => simp [wfB, run]
  | cons e tr ih => simp [wfB, run, ih, Bool.and_assoc]

theorem read_init (pol : Nat) :
    step (init pol) (Ev.read none) = pendingSt pol [] [] none none none [none] :=
  rfl

theorem pending_getCb (pol : Nat) (bytes : List Nat) (pcs : List (List Nat))
    (m : Option (List Nat)) (lenO : Option Nat) (t : Option String)
    (iss : List (Option Nat)) :
    step (pendingSt pol bytes pcs m lenO t iss) (Ev.getCb none) =
      awaitSt pol bytes pcs m lenO t iss :=
  rfl

/-- The first response: no metadata captured yet, so the etag check is
vacuous and the headers are captured verbatim. -/
theorem await_result_capture (pol : Nat) (bytes : List Nat)
    (pcs : List (List Nat)) (iss : List (Option Nat)) (hdr : Headers) :
    step (awaitSt pol bytes pcs none none none iss)
        (Ev.result (Sum.inr hdr) none) =
      streamSt pol bytes pcs hdr.contentMd5 (hdr.contentLength.getD 0)
        hdr.etag iss :=
  rfl

/-- A resumed response whose etag agrees with the captured one (vacuously
when no etag was captured): the metadata is kept and streaming resumes. -/
theorem await_result_keep (pol : Nat) (bytes : List Nat)
    (pcs : List (List Nat)) (m : Option (List Nat)) (L : Nat)
    (t : Option String) (iss : List (Option Nat)) (hdr : Headers)
    (hteq : t.isSome = true → hdr.etag = t) :
    step (awaitSt pol bytes pcs m (some L) t iss)
        (Ev.result (Sum.inr hdr) none) =
      streamSt pol bytes pcs m L t iss := by
  cases t with
  | none => rfl
  | some tv =>
      have h : hdr.etag = some tv := hteq rfl
      simp [step, resultFn, awaitSt, streamSt, pump, h]

theorem stream_readable (pol : Nat) (bytes : List Nat) (pcs : List (List Nat))
    (m : Option (List Nat)) (L : Nat) (t : Option String)
    (iss : List (Option Nat)) (c : List Nat) :
    step (streamSt pol bytes pcs m L t iss) (Ev.readable (some c)) =
      midSt pol (bytes ++ c) (pcs ++ [c]) m L t iss := by
  simp [step, pump, streamSt, midSt]

theorem mid_read (pol : Nat) (bytes : List Nat) (pcs : List (List Nat))
    (m : Option (List Nat)) (L : Nat) (t : Option String)
    (iss : List (Option Nat)) :
    step (midSt pol bytes pcs m L t iss) (Ev.read none) =
      streamSt pol bytes pcs m L t iss :=
  rfl

/-- A premature close: the source ends with fewer bytes consumed than the
declared length.  The handles are dropped and, in the same step, `_read`
issues a fresh request at the current offset with a fresh retry budget. -/
theorem stream_end_mid (pol : Nat) (bytes : List Nat) (pcs : List (List Nat))
    (m : Option (List Nat)) (L : Nat) (t : Option String)
    (iss : List (Option Nat)) (hlt : bytes.length < L) :
    step (streamSt pol bytes pcs m L t iss) Ev.srcEnd =
      pendingSt pol bytes pcs m (some L) t
        (iss ++ [rangeFor bytes.length]) := by
  simp [step, responseEnd, readFn, makeRequest, streamSt, pendingSt, hlt]

/-- A close at (or past) the declared length with a matching or absent
checksum: the stream ends. -/
theorem stream_end_done (pol : Nat) (bytes : List Nat) (pcs : List (List Nat))
    (m : Option (List Nat)) (L : Nat) (t : Option String)
    (iss : List (Option Nat)) (hge : L ≤ bytes.length)
    (hm : m = none ∨ m = some bytes) :
    step (streamSt pol bytes pcs m L t iss) Ev.srcEnd =
      { streamSt pol bytes pcs m L t iss with
          srcEnded := true, endCount := 1 } := by
  rcases hm with hm | hm <;>
    simp [step, responseEnd, streamSt, hm, Nat.not_lt.mpr hge]

theorem segsChunks_join (segs : List (Headers × List (List Nat))) :
    (segsChunks segs).flatten = segsBytes segs := by
  induction segs with
  | nil => rfl
  | cons p rest ih => simp [segsChunks, segsBytes, ih]

theorem chunks_run (pol : Nat) (m : Option (List Nat)) (L : Nat)
    (t : Option String) (iss : List (Option Nat)) (cs : List (List Nat)) :
    ∀ (bytes : List Nat) (pcs : List (List Nat)) (rest : List Ev),
    run (streamSt pol bytes pcs m L t iss) (chunkEvs cs ++ rest) =
      run (streamSt pol (bytes ++ cs.flatten) (pcs ++ cs) m L t iss) rest
    ∧ wfB (streamSt pol bytes pcs m L t iss) (chunkEvs cs ++ rest) =
      wfB (streamSt pol (bytes ++ cs.flatten) (pcs ++ cs) m L t iss) rest := by
  induction cs with
  | nil => intro bytes pcs rest; simp [chunkEvs]
  | cons c cs ih =>
      intro bytes pcs rest
      have h1 := stream_readable pol bytes pcs m L t iss c
      have h2 := mid_read pol (bytes ++ c) (pcs ++ [c]) m L t iss
      have ih2 := ih (bytes ++ c) (pcs ++ [c]) rest
      constructor
      · calc run (streamSt pol bytes pcs m L t iss)
              (chunkEvs (c :: cs) ++ rest)
            = run (streamSt pol (bytes ++ c) (pcs ++ [c]) m L t iss)
                (chunkEvs cs ++ rest) := by
              simp [chunkEvs, run, h1, h2]
          _ = run (streamSt pol (bytes ++ (c :: cs).flatten) (pcs ++ c :: cs)
                m L t iss) rest := by
              rw [ih2.1]; simp [List.append_assoc]
      · have e1 : evOk (streamSt pol bytes pcs m L t iss)
            (Ev.readable (some c)) = true := rfl
        have e2 : evOk (midSt pol (bytes ++ c) (pcs ++ [c]) m L t iss)
            (Ev.read none) = true := rfl
        calc wfB (streamSt pol bytes pcs m L t iss)
              (chunkEvs (c :: cs) ++ rest)
            = wfB (streamSt pol (bytes ++ c) (pcs ++ [c]) m L t iss)
                (chunkEvs cs ++ rest) := by
              simp only [chunkEvs, List.cons_append, wfB, h1, h2, e1, e2,
                Bool.true_and, List.append_eq]
          _ = wfB (streamSt pol (bytes ++ (c :: cs).flatten) (pcs ++ c :: cs)
                m L t iss) rest := by
              rw [ih2.2]; simp [List.append_assoc]

theorem segEvs_shape (hdr : Headers) (cs : List (List Nat)) (rest : List Ev) :
    segEvs hdr cs ++ rest =
      Ev.getCb none :: Ev.result (Sum.inr hdr) none ::
        (chunkEvs cs ++ (Ev.srcEnd :: rest)) := by
  simp [segEvs, List.append_assoc]

/-- One non-final connection segment after the metadata was captured: the
segment streams its chunks, the premature close re-requests at the new
offset, and the machine is back in the pending-request state. -/
theorem seg_run_mid (pol : Nat) (bytes : List Nat) (pcs : List (List Nat))
    (m : Option (List Nat)) (L : Nat) (t : Option String)
    (iss : List (Option Nat)) (hdr : Headers) (cs : List (List Nat))
    (rest : List Ev) (hteq : t.isSome = true → hdr.etag = t)
    (hlt : (bytes ++ cs.flatten).length < L) :
    run (pendingSt pol bytes pcs m (some L) t iss) (segEvs hdr cs ++ rest) =
      run (pendingSt pol (bytes ++ cs.flatten) (pcs ++ cs) m (some L) t
        (iss ++ [rangeFor (bytes ++ cs.flatten).length])) rest
    ∧ wfB (pendingSt pol bytes pcs m (some L) t iss) (segEvs hdr cs ++ rest) =
      wfB (pendingSt pol (bytes ++ cs.flatten) (pcs ++ cs) m (some L) t
        (iss ++ [rangeFor (bytes ++ cs.flatten).length])) rest := by
  have hg := pending_getCb pol bytes pcs m (some L) t iss
  have hr := await_result_keep pol bytes pcs m L t iss hdr hteq
  have hc := chunks_run pol m L t iss cs bytes pcs (Ev.srcEnd :: rest)
  have he := stream_end_mid pol (bytes ++ cs.flatten) (pcs ++ cs) m L t iss hlt
  have eg : evOk (pendingSt pol bytes pcs m (some L) t iss)
      (Ev.getCb none) = true := rfl
  have er : evOk (awaitSt pol bytes pcs m (some L) t iss)
      (Ev.result (Sum.inr hdr) none) = true := rfl
  have ee : evOk (streamSt pol (bytes ++ cs.flatten) (pcs ++ cs) m L t iss)
      Ev.srcEnd = true := rfl
  constructor
  · rw [segEvs_shape]
    simp only [run, hg, hr]
    rw [hc.1]
    simp only [run, he]
  · rw [segEvs_shape]
    simp only [wfB, hg, hr, eg, er, Bool.true_and]
    rw [hc.2]
    simp only [wfB, he, ee, Bool.true_and]

/-- The final connection segment after the metadata was captured: the close
happens at the declared length and the checksum (when captured) matches, so
the stream ends with no error. -/
theorem seg_run_done (pol : Nat) (bytes : List Nat) (pcs : List (List Nat))
    (m : Option (List Nat)) (L : Nat) (t : Option String)
    (iss : List (Option Nat)) (hdr : Headers) (cs : List (List Nat))
    (hteq : t.isSome = true → hdr.etag = t)
    (hge : L ≤ (bytes ++ cs.flatten).length)
    (hm : m = none ∨ m = some (bytes ++ cs.flatten)) :
    run (pendingSt pol bytes pcs m (some L) t iss) (segEvs hdr cs) =
      { streamSt pol (bytes ++ cs.flatten) (pcs ++ cs) m L t iss with
          srcEnded := true, endCount := 1 }
    ∧ wfB (pendingSt pol bytes pcs m (some L) t iss) (segEvs hdr cs) =
      true := by
  have hg := pending_getCb pol bytes pcs m (some L) t iss
  have hr := await_result_keep pol bytes pcs m L t iss hdr hteq
  have hc := chunks_run pol m L t iss cs bytes pcs [Ev.srcEnd]
  have he := stream_end_done pol (bytes ++ cs.flatten) (pcs ++ cs) m L t iss
    hge hm
  have eg : evOk (pendingSt pol bytes pcs m (some L) t iss)
      (Ev.getCb none) = true := rfl
  have er : evOk (awaitSt pol bytes pcs m (some L) t iss)
      (Ev.result (Sum.inr hdr) none) = true := rfl
  have ee : evOk (streamSt pol (bytes ++ cs.flatten) (pcs ++ cs) m L t iss)
      Ev.srcEnd = true := rfl
  have hshape : segEvs hdr cs =
      Ev.getCb none :: Ev.result (Sum.inr hdr) none ::
        (chunkEvs cs ++ [Ev.srcEnd]) := rfl
  constructor
  · rw [hshape]
    simp only [run, hg, hr]
    rw [hc.1]
    simp only [run, he]
  · rw [hshape]
    simp only [wfB, hg, hr, eg, er, Bool.true_and]
    rw [hc.2]
    simp only [wfB, he, ee, Bool.true_and]

/-- The first connection segment: no metadata is captured yet, so the first
response's headers are captured verbatim; the segment then behaves like any
other non-final segment. -/
theorem first_seg_mid (pol : Nat) (bytes : List Nat) (pcs : List (List Nat))
    (iss : List (Option Nat)) (hdr : Headers) (cs : List (List Nat))
    (rest : List Ev)
    (hlt : (bytes ++ cs.flatten).length < hdr.contentLength.getD 0) :
    run (pendingSt pol bytes pcs none none none iss) (segEvs hdr cs ++ rest) =
      run (pendingSt pol (bytes ++ cs.flatten) (pcs ++ cs) hdr.contentMd5
        (some (hdr.contentLength.getD 0)) hdr.etag
        (iss ++ [rangeFor (bytes ++ cs.flatten).length])) rest
    ∧ wfB (pendingSt pol bytes pcs none none none iss)
        (segEvs hdr cs ++ rest) =
      wfB (pendingSt pol (bytes ++ cs.flatten) (pcs ++ cs) hdr.contentMd5
        (some (hdr.contentLength.getD 0)) hdr.etag
        (iss ++ [rangeFor (bytes ++ cs.flatten).length])) rest := by
  have hg := pending_getCb pol bytes pcs none none none iss
  have hr := await_result_capture pol bytes pcs iss hdr
  have hc := chunks_run pol hdr.contentMd5 (hdr.contentLength.getD 0)
    hdr.etag iss cs bytes pcs (Ev.srcEnd :: rest)
  have he := stream_end_mid pol (bytes ++ cs.flatten) (pcs ++ cs)
    hdr.contentMd5 (hdr.contentLength.getD 0) hdr.etag iss hlt
  have eg : evOk (pendingSt pol bytes pcs none none none iss)
      (Ev.getCb none) = true := rfl
  have er : evOk (awaitSt pol bytes pcs none none none iss)
      (Ev.result (Sum.inr hdr) none) = true := rfl
  have ee : evOk (streamSt pol (bytes ++ cs.flatten) (pcs ++ cs)
      hdr.contentMd5 (hdr.contentLength.getD 0) hdr.etag iss)
      Ev.srcEnd = true := rfl
  constructor
  · rw [segEvs_shape]
    simp only [run, hg, hr]
    rw [hc.1]
    simp only [run, he]
  · rw [segEvs_shape]
    simp only [wfB, hg, hr, eg, er, Bool.true_and]
    rw [hc.2]
    simp only [wfB, he, ee, Bool.true_and]

/-- A session served in a single segment: capture then complete. -/
theorem first_seg_done (pol : Nat) (bytes : List Nat) (pcs : List (List Nat))
    (iss : List (Option Nat)) (hdr : Headers) (cs : List (List Nat))
    (hge : hdr.contentLength.getD 0 ≤ (bytes ++ cs.flatten).length)
    (hm : hdr.contentMd5 = none ∨ hdr.contentMd5 = some (bytes ++ cs.flatten)) :
    run (pendingSt pol bytes pcs none none none iss) (segEvs hdr cs) =
      { streamSt pol (bytes ++ cs.flatten) (pcs ++ cs) hdr.contentMd5
          (hdr.contentLength.getD 0) hdr.etag iss with
          srcEnded := true, endCount := 1 }
    ∧ wfB (pendingSt pol bytes pcs none none none iss) (segEvs hdr cs) =
      true := by
  have hg := pending_getCb pol bytes pcs none none none iss
  have hr := await_result_capture pol bytes pcs iss hdr
  have hc := chunks_run pol hdr.contentMd5 (hdr.contentLength.getD 0)
    hdr.etag iss cs bytes pcs [Ev.srcEnd]
  have he := stream_end_done pol (bytes ++ cs.flatten) (pcs ++ cs)
    hdr.contentMd5 (hdr.contentLength.getD 0) hdr.etag iss hge hm
  have eg : evOk (pendingSt pol bytes pcs none none none iss)
      (Ev.getCb none) = true := rfl
  have er : evOk (awaitSt pol bytes pcs none none none iss)
      (Ev.result (Sum.inr hdr) none) = true := rfl
  have ee : evOk (streamSt pol (bytes ++ cs.flatten) (pcs ++ cs)
      hdr.contentMd5 (hdr.contentLength.getD 0) hdr.etag iss)
      Ev.srcEnd = true := rfl
  have hshape : segEvs hdr cs =
      Ev.getCb none :: Ev.result (Sum.inr hdr) none ::
        (chunkEvs cs ++ [Ev.srcEnd]) := rfl
  constructor
  · rw [hshape]
    simp only [run, hg, hr]
    rw [hc.1]
    simp only [run, he]
  · rw [hshape]
    simp only [wfB, hg, hr, eg, er, Bool.true_and]
    rw [hc.2]
    simp only [wfB, he, ee, Bool.true_and]

/-- The loop over the remaining segments after the metadata was captured. -/
theorem session_run (pol : Nat) (R : List Nat) :
    ∀ (segs : List (Headers × List (List Nat))) (bytes : List Nat)
      (pcs : List (List Nat)) (m : Option (List Nat)) (t : Option String)
      (iss : List (Option Nat)),
    segs ≠ [] → R = bytes ++ segsBytes segs → segsProperB segs = true →
    (m = none ∨ m = some R) →
    (∀ p ∈ segs, t.isSome = true → p.1.etag = t) →
    wfB (pendingSt pol bytes pcs m (some R.length) t iss)
        (sessionEvs segs) = true
    ∧ (run (pendingSt pol bytes pcs m (some R.length) t iss)
        (sessionEvs segs)).pushed = pcs ++ segsChunks segs
    ∧ (run (pendingSt pol bytes pcs m (some R.length) t iss)
        (sessionEvs segs)).endCount = 1
    ∧ (run (pendingSt pol bytes pcs m (some R.length) t iss)
        (sessionEvs segs)).errCount = 0
    ∧ (run (pendingSt pol bytes pcs m (some R.length) t iss)
        (sessionEvs segs)).error = none := by
  intro segs
  induction segs with
  | nil => intro _ _ _ _ _ h; exact absurd rfl h
  | cons p rest ih =>
      intro bytes pcs m t iss _ hR hprop hm hetag
      cases rest with
      | nil =>
          have hR1 : R = bytes ++ p.2.flatten := by
            simpa [segsBytes] using hR
          have hge : R.length ≤ (bytes ++ p.2.flatten).length := by
            rw [hR1]
          have hm1 : m = none ∨ m = some (bytes ++ p.2.flatten) := by
            rw [← hR1]; exact hm
          have hteq : t.isSome = true → p.1.etag = t :=
            hetag p (List.mem_singleton.mpr rfl)
          have hd := seg_run_done pol bytes pcs m R.length t iss p.1 p.2
            hteq hge hm1
          have hsess : sessionEvs [p] = segEvs p.1 p.2 := by
            simp [sessionEvs]
          rw [hsess, hd.1] at *
          refine ⟨by rw [hsess]; exact hd.2, ?_, ?_, ?_, ?_⟩ <;>
            simp [streamSt, segsChunks]
      | cons q rest2 =>
          have hprop2 : segsBytes (q :: rest2) ≠ [] ∧
              segsProperB (q :: rest2) = true := by
            have : (!(segsBytes (q :: rest2)).isEmpty &&
                segsProperB (q :: rest2)) = true := hprop
            simp only [Bool.and_eq_true, Bool.not_eq_true] at this
            exact ⟨by
              intro hnil
              rw [hnil] at this
              simp at this, this.2⟩
          have hR2 : R = (bytes ++ p.2.flatten) ++ segsBytes (q :: rest2) := by
            rw [hR]; simp [segsBytes, List.append_assoc]
          have hlt : (bytes ++ p.2.flatten).length < R.length := by
            rw [hR2]
            have hpos : 0 < (segsBytes (q :: rest2)).length :=
              List.length_pos.mpr hprop2.1
            simp only [List.length_append]
            omega
          have hteq : t.isSome = true → p.1.etag = t :=
            hetag p (List.mem_cons_self p _)
          have hmid := seg_run_mid pol bytes pcs m R.length t iss p.1 p.2
            (sessionEvs (q :: rest2)) hteq hlt
          have hrec := ih (bytes ++ p.2.flatten) (pcs ++ p.2) m t
            (iss ++ [rangeFor (bytes ++ p.2.flatten).length])
            (List.cons_ne_nil q rest2) hR2 hprop2.2 hm
            (fun p2 hp2 => hetag p2 (List.mem_cons_of_mem p hp2))
          have hsess : sessionEvs (p :: q :: rest2) =
              segEvs p.1 p.2 ++ sessionEvs (q :: rest2) := rfl
          rw [hsess]
          refine ⟨by rw [hmid.2]; exact hrec.1, ?_, ?_, ?_, ?_⟩
          · rw [hmid.1, hrec.2.1]; simp [segsChunks, List.append_assoc]
          · rw [hmid.1, hrec.2.2.1]
          · rw [hmid.1, hrec.2.2.2.1]
          · rw [hmid.1, hrec.2.2.2.2]

/-- Claim C1: for every resource delivered across N ≥ 1 connection segments
with N-1 premature closes and no 5xx/4xx responses, the concatenation of all
chunks delivered to the consumer equals the full original resource
byte-for-byte (which also means the chunks arrive in byte-offset order with
no gaps or overlaps), and the end notification fires exactly once with no
error.  The resource is `R`; the first response declares its full length,
its checksum (or none) and some etag; each later segment carries an etag
agreeing with the first (vacuously if the first had none); every close
except the last leaves at least one byte still to come. -/
theorem claim1_completeness (pol : Nat) (R : List Nat) (hdr1 : Headers)
    (cs1 : List (List Nat)) (rest : List (Headers × List (List Nat)))
    (hR : segsBytes ((hdr1, cs1) :: rest) = R)
    (hprop : segsProperB ((hdr1, cs1) :: rest) = true)
    (hlen : hdr1.contentLength.getD 0 = R.length)
    (hmd5 : hdr1.contentMd5 = none ∨ hdr1.contentMd5 = some R)
    (hetag : ∀ p ∈ rest, hdr1.etag.isSome = true → p.1.etag = hdr1.etag) :
    wfB (init pol) (Ev.read none :: sessionEvs ((hdr1, cs1) :: rest)) = true
    ∧ (run (init pol)
        (Ev.read none :: sessionEvs ((hdr1, cs1) :: rest))).pushed.flatten = R
    ∧ (run (init pol)
        (Ev.read none :: sessionEvs ((hdr1, cs1) :: rest))).endCount = 1
    ∧ (run (init pol)
        (Ev.read none :: sessionEvs ((hdr1, cs1) :: rest))).errCount = 0
    ∧ (run (init pol)
        (Ev.read none :: sessionEvs ((hdr1, cs1) :: rest))).error = none := by
  have h0 := read_init pol
  have e0 : evOk (init pol) (Ev.read none) = true := rfl
  have hrun : run (init pol) (Ev.read none :: sessionEvs ((hdr1, cs1) :: rest))
      = run (pendingSt pol [] [] none none none [none])
          (sessionEvs ((hdr1, cs1) :: rest)) := by
    rw [show run (init pol) (Ev.read none :: sessionEvs ((hdr1, cs1) :: rest))
        = run (step (init pol) (Ev.read none))
            (sessionEvs ((hdr1, cs1) :: rest)) from rfl, h0]
  have hwf : wfB (init pol) (Ev.read none :: sessionEvs ((hdr1, cs1) :: rest))
      = wfB (pendingSt pol [] [] none none none [none])
          (sessionEvs ((hdr1, cs1) :: rest)) := by
    rw [show wfB (init pol) (Ev.read none :: sessionEvs ((hdr1, cs1) :: rest))
        = (evOk (init pol) (Ev.read none) &&
            wfB (step (init pol) (Ev.read none))
              (sessionEvs ((hdr1, cs1) :: rest))) from rfl, e0, h0,
      Bool.true_and]
  cases rest with
  | nil =>
      have hR1 : cs1.flatten = R := by simpa [segsBytes] using hR
      have hge : hdr1.contentLength.getD 0 ≤
          (([] : List Nat) ++ cs1.flatten).length := by
        simp [hlen, hR1]
      have hm : hdr1.contentMd5 = none ∨
          hdr1.contentMd5 = some (([] : List Nat) ++ cs1.flatten) := by
        simpa [hR1] using hmd5
      have hd := first_seg_done pol [] [] [none] hdr1 cs1 hge hm
      have hsess : sessionEvs [(hdr1, cs1)] = segEvs hdr1 cs1 := by
        simp [sessionEvs]
      rw [hsess] at hrun hwf ⊢
      refine ⟨by rw [hwf]; exact hd.2, ?_, ?_, ?_, ?_⟩ <;>
        rw [hrun, hd.1] <;> simp [streamSt, hR1]
  | cons q rest2 =>
      have hprop2 : segsBytes (q :: rest2) ≠ [] ∧
          segsProperB (q :: rest2) = true := by
        have h1 : (!(segsBytes (q :: rest2)).isEmpty &&
            segsProperB (q :: rest2)) = true := hprop
        simp only [Bool.and_eq_true, Bool.not_eq_true] at h1
        exact ⟨fun hnil => by rw [hnil] at h1; simp at h1, h1.2⟩
      have hR2 : R = (([] : List Nat) ++ cs1.flatten) ++
          segsBytes (q :: rest2) := by
        rw [← hR]; simp [segsBytes]
      have hlt : ((([] : List Nat) ++ cs1.flatten)).length <
          hdr1.contentLength.getD 0 := by
        rw [hlen, hR2]
        have hpos : 0 < (segsBytes (q :: rest2)).length :=
          List.length_pos.mpr hprop2.1
        simp only [List.length_append, List.nil_append]
        omega
      have hmid := first_seg_mid pol [] [] [none] hdr1 cs1
        (sessionEvs (q :: rest2)) hlt
      rw [hlen] at hmid
      have hrec := session_run pol R (q :: rest2)
        (([] : List Nat) ++ cs1.flatten) (([] : List (List Nat)) ++ cs1)
        hdr1.contentMd5 hdr1.etag
        ([none] ++ [rangeFor ((([] : List Nat) ++ cs1.flatten)).length])
        (List.cons_ne_nil q rest2) hR2 hprop2.2 hmd5 hetag
      have hsess : sessionEvs ((hdr1, cs1) :: q :: rest2) =
          segEvs hdr1 cs1 ++ sessionEvs (q :: rest2) := rfl
      rw [hsess] at hrun hwf ⊢
      refine ⟨?_, ?_, ?_, ?_, ?_⟩
      · rw [hwf, hmid.2]; exact hrec.1
      · rw [hrun, hmid.1, hrec.2.1]
        simp only [List.flatten_append, segsChunks_join, List.nil_append]
        rw [hR2]; simp
      · rw [hrun, hmid.1, hrec.2.2.1]
      · rw [hrun, hmid.1, hrec.2.2.2.1]
      · rw [hrun, hmid.1, hrec.2.2.2.2]

/-- Witness for claim C1: a three-byte resource delivered across two
connection segments (one premature close after two bytes), first response
declaring the full length and checksum, both responses carrying the same
etag. -/
theorem claim1_completeness_witness :
    wfB (init 3) (Ev.read none :: sessionEvs
      [(⟨some 3, some "e", some [10, 20, 30]⟩, [[10], [20]]),
       (⟨some 1, some "e", none⟩, [[30]])]) = true
    ∧ (run (init 3) (Ev.read none :: sessionEvs
      [(⟨some 3, some "e", some [10, 20, 30]⟩, [[10], [20]]),
       (⟨some 1, some "e", none⟩, [[30]])])).pushed.flatten = [10, 20, 30]
    ∧ (run (init 3) (Ev.read none :: sessionEvs
      [(⟨some 3, some "e", some [10, 20, 30]⟩, [[10], [20]]),
       (⟨some 1, some "e", none⟩, [[30]])])).endCount = 1
    ∧ (run (init 3) (Ev.read none :: sessionEvs
      [(⟨some 3, some "e", some [10, 20, 30]⟩, [[10], [20]]),
       (⟨some 1, some "e", none⟩, [[30]])])).errCount = 0
    ∧ (run (init 3) (Ev.read none :: sessionEvs
      [(⟨some 3, some "e", some [10, 20, 30]⟩, [[10], [20]]),
       (⟨some 1, some "e", none⟩, [[30]])])).error = none :=
  claim1_completeness 3 [10, 20, 30] ⟨some 3, some "e", some [10, 20, 30]⟩
    [[10], [20]] [(⟨some 1, some "e", none⟩, [[30]])]
    (by decide) (by decide) (by decide) (by decide) (by decide)

/-- Claim C2: when a response ends, the session retries transparently if and
only if the bytes consumed so far are strictly less than the declared length
captured from the first response.  In the retry case no error or end is
surfaced, the new retry operation has the full configured budget (no retry
budget is consumed), no backoff timer is involved, and a new request at the
current consumed-byte offset is issued within the same step.  When the bytes
consumed are at least the declared length (including an overrun), no new
request is issued and, when the captured checksum is absent or matches, the
session completes with the end notification and no error. -/
theorem claim2_premature_close (s : St) (L : Nat) (hL : s.expLen = some L)
    (herr : s.error = none) (hab : s.aborted = false)
    (hrp : s.requestPending = false) :
    ((responseEnd s).issued ≠ s.issued ↔ s.nbytesread < L)
    ∧ (s.nbytesread < L →
        (responseEnd s).errCount = s.errCount
        ∧ (responseEnd s).endCount = s.endCount
        ∧ (responseEnd s).error = none
        ∧ (responseEnd s).retriesLeft = s.retryPolicy
        ∧ (responseEnd s).retryScheduled = s.retryScheduled
        ∧ (responseEnd s).issued = s.issued ++ [rangeFor s.nbytesread])
    ∧ (L ≤ s.nbytesread →
        (responseEnd s).issued = s.issued
        ∧ (s.expMd5 = none ∨ s.expMd5 = some s.md5acc →
            (responseEnd s).endCount = s.endCount + 1
            ∧ (responseEnd s).error = none
            ∧ (responseEnd s).errCount = s.errCount)) := by
  by_cases hlt : s.nbytesread < L
  · have hbr : s.nbytesread < s.expLen.getD 0 := by rw [hL]; exact hlt
    have hre : responseEnd s =
        makeRequest
          { s with waitingReadable := false, hasRequest := false,
                   hasResponse := false, reqCanceled := false,
                   respDestroyed := false, srcEnded := false,
                   reading := true, retriesLeft := s.retryPolicy } := by
      simp only [responseEnd, if_pos hbr, readFn, hab, herr]
      simp [herr, hrp]
    have hmk : responseEnd s =
        { s with waitingReadable := false, hasRequest := false,
                 hasResponse := false, reqCanceled := false,
                 respDestroyed := false, srcEnded := false,
                 reading := true, retriesLeft := s.retryPolicy,
                 requestPending := true, getOutstanding := true,
                 issued := s.issued ++ [rangeFor s.nbytesread] } := by
      rw [hre]; simp [makeRequest, hab]
    refine ⟨?_, fun _ => ?_, fun hge => absurd hlt (Nat.not_lt.mpr hge)⟩
    · rw [hmk]
      refine ⟨fun _ => hlt, fun _ hcontra => ?_⟩
      have := congrArg List.length hcontra
      simp at this
    · rw [hmk]
      simp [herr]
  · have hbr : ¬ s.nbytesread < s.expLen.getD 0 := by
      rw [hL]; exact hlt
    have hiss : (responseEnd s).issued = s.issued := by
      simp only [responseEnd, if_neg hbr]
      rcases s.expMd5 with _ | mv
      · rfl
      · by_cases hx : mv = s.md5acc <;>
          simp [hx, internalError, stopAndCleanUp]
    refine ⟨?_, fun h => absurd h hlt, fun _ => ⟨hiss, fun hm => ?_⟩⟩
    · rw [hiss]; simp [hlt]
    · rcases hm with hm | hm <;>
        simp [responseEnd, if_neg hbr, hm, herr]

/-- Witness for claim C2: a streaming state that declared 3 bytes and
consumed 2 when the response ends. -/
theorem claim2_premature_close_witness :
    ((responseEnd (streamSt 3 [1, 2] [[1, 2]] (some [1, 2, 3]) 3
        (some "e") [none])).issued ≠
      (streamSt 3 [1, 2] [[1, 2]] (some [1, 2, 3]) 3 (some "e") [none]).issued
      ↔ (streamSt 3 [1, 2] [[1, 2]] (some [1, 2, 3]) 3 (some "e")
          [none]).nbytesread < 3)
    ∧ ((streamSt 3 [1, 2] [[1, 2]] (some [1, 2, 3]) 3 (some "e")
          [none]).nbytesread < 3 →
        (responseEnd (streamSt 3 [1, 2] [[1, 2]] (some [1, 2, 3]) 3
          (some "e") [none])).errCount =
          (streamSt 3 [1, 2] [[1, 2]] (some [1, 2, 3]) 3 (some "e")
            [none]).errCount
        ∧ (responseEnd (streamSt 3 [1, 2] [[1, 2]] (some [1, 2, 3]) 3
            (some "e") [none])).endCount =
          (streamSt 3 [1, 2] [[1, 2]] (some [1, 2, 3]) 3 (some "e")
            [none]).endCount
        ∧ (responseEnd (streamSt 3 [1, 2] [[1, 2]] (some [1, 2, 3]) 3
            (some "e") [none])).error = none
        ∧ (responseEnd (streamSt 3 [1, 2] [[1, 2]] (some [1, 2, 3]) 3
            (some "e") [none])).retriesLeft =
          (streamSt 3 [1, 2] [[1, 2]] (some [1, 2, 3]) 3 (some "e")
            [none]).retryPolicy
        ∧ (responseEnd (streamSt 3 [1, 2] [[1, 2]] (some [1, 2, 3]) 3
            (some "e") [none])).retryScheduled =
          (streamSt 3 [1, 2] [[1, 2]] (some [1, 2, 3]) 3 (some "e")
            [none]).retryScheduled
        ∧ (responseEnd (streamSt 3 [1, 2] [[1, 2]] (some [1, 2, 3]) 3
            (some "e") [none])).issued =
          (streamSt 3 [1, 2] [[1, 2]] (some [1, 2, 3]) 3 (some "e")
            [none]).issued ++
            [rangeFor (streamSt 3 [1, 2] [[1, 2]] (some [1, 2, 3]) 3
                (some "e") [none]).nbytesread])
    ∧ (3 ≤ (streamSt 3 [1, 2] [[1, 2]] (some [1, 2, 3]) 3 (some "e")
          [none]).nbytesread →
        (responseEnd (streamSt 3 [1, 2] [[1, 2]] (some [1, 2, 3]) 3
          (some "e") [none])).issued =
          (streamSt 3 [1, 2] [[1, 2]] (some [1, 2, 3]) 3 (some "e")
            [none]).issued
        ∧ ((streamSt 3 [1, 2] [[1, 2]] (some [1, 2, 3]) 3 (some "e")
              [none]).expMd5 = none ∨
            (streamSt 3 [1, 2] [[1, 2]] (some [1, 2, 3]) 3 (some "e")
              [none]).expMd5 =
            some (streamSt 3 [1, 2] [[1, 2]] (some [1, 2, 3]) 3 (some "e")
              [none]).md5acc →
          (responseEnd (streamSt 3 [1, 2] [[1, 2]] (some [1, 2, 3]) 3
            (some "e") [none])).endCount =
            (streamSt 3 [1, 2] [[1, 2]] (some [1, 2, 3]) 3 (some "e")
              [none]).endCount + 1
          ∧ (responseEnd (streamSt 3 [1, 2] [[1, 2]] (some [1, 2, 3]) 3
              (some "e") [none])).error = none
          ∧ (responseEnd (streamSt 3 [1, 2] [[1, 2]] (some [1, 2, 3]) 3
              (some "e") [none])).errCount =
            (streamSt 3 [1, 2] [[1, 2]] (some [1, 2, 3]) 3 (some "e")
              [none]).errCount)) :=
  claim2_premature_close
    (streamSt 3 [1, 2] [[1, 2]] (some [1, 2, 3]) 3 (some "e") [none]) 3
    (by decide) (by decide) (by decide) (by decide)

theorem issued_makeRequest (s : St) :
    (makeRequest s).issued = s.issued ∨
    (makeRequest s).issued = s.issued ++ [rangeFor s.nbytesread] := by
  unfold makeRequest; split_ifs <;> simp

theorem issued_readFn (s : St) (b : Option (List Nat)) :
    (readFn s b).issued = s.issued ∨
    (readFn s b).issued = s.issued ++ [rangeFor s.nbytesread] := by
  simp only [readFn]
  split_ifs
  · exact Or.inl rfl
  · exact Or.inl rfl
  · exact Or.inl rfl
  · cases b <;> exact Or.inl rfl
  · exact Or.inl rfl
  · exact issued_makeRequest _

theorem issued_responseEnd (s : St) :
    (responseEnd s).issued = s.issued ∨
    (responseEnd s).issued = s.issued ++ [rangeFor s.nbytesread] := by
  unfold responseEnd
  split_ifs
  · exact issued_readFn _ none
  · rcases s.expMd5 with _ | mv
    · exact Or.inl rfl
    · by_cases hx : mv = s.md5acc
      · left; simp [hx]
      · left; simp [hx, internalError, stopAndCleanUp]

/-- Claim C3: every request issued by the session (in any state, under any
event) omits the byte-range resumption header when the current consumed-byte
offset is 0 and otherwise requests exactly from the consumed-byte offset
onward; the requested offset is the session's `nbytesread` at the moment the
request is created (no handler changes `nbytesread` before issuing within a
step). -/
theorem claim3_range_offset (s : St) (e : Ev) :
    (step s e).issued = s.issued ∨
    (step s e).issued = s.issued ++ [rangeFor s.nbytesread] := by
  cases e with
  | read b => exact issued_readFn s b
  | getCb r =>
      left
      cases r with
      | none => simp only [step, getCbFn]; split_ifs <;> rfl
      | some e1 => rfl
  | result r b =>
      cases r with
      | inl f =>
          left
          simp only [step, resultFn]
          split_ifs <;> rfl
      | inr h =>
          left
          simp only [step, resultFn]
          split_ifs <;> cases b <;> rfl
  | retryTimer => exact issued_makeRequest _
  | readable b => left; cases b <;> rfl
  | srcEnd => exact issued_responseEnd _
  | abortEv =>
      left
      simp only [step, abortFn]
      split_ifs <;> rfl

/-- Claim C5, part helpers: metadata, once captured, is never changed by any
further event. -/
theorem meta_immutable (s : St) (e : Ev) (h : s.expLen.isSome = true) :
    (step s e).expLen = s.expLen ∧ (step s e).expMd5 = s.expMd5
    ∧ (step s e).expEtag = s.expEtag := by
  have hno : s.expLen.isNone = false := by
    cases hx : s.expLen with
    | none => rw [hx] at h; simp at h
    | some v => rfl
  cases e with
  | read b =>
      simp only [step, readFn]
      split_ifs <;>
        first
          | exact ⟨rfl, rfl, rfl⟩
          | (cases b <;> exact ⟨rfl, rfl, rfl⟩)
          | (simp only [makeRequest]; split_ifs <;> exact ⟨rfl, rfl, rfl⟩)
  | getCb r =>
      cases r with
      | none => simp only [step, getCbFn]; split_ifs <;> exact ⟨rfl, rfl, rfl⟩
      | some e1 => exact ⟨rfl, rfl, rfl⟩
  | result r b =>
      cases r with
      | inl f =>
          simp only [step, resultFn]
          split_ifs <;> exact ⟨rfl, rfl, rfl⟩
      | inr hh =>
          simp only [step, resultFn]
          split_ifs with h1 h2
          · exact ⟨rfl, rfl, rfl⟩
          · exact absurd h2 (by simp [hno])
          · cases b <;> exact ⟨rfl, rfl, rfl⟩
  | retryTimer =>
      simp only [step, makeRequest]
      split_ifs <;> exact ⟨rfl, rfl, rfl⟩
  | readable b => cases b <;> exact ⟨rfl, rfl, rfl⟩
  | srcEnd =>
      simp only [step, responseEnd]
      split_ifs with h1
      · simp only [readFn]
        split_ifs <;>
          first
            | exact ⟨rfl, rfl, rfl⟩
            | (simp only [makeRequest]; split_ifs <;> exact ⟨rfl, rfl, rfl⟩)
      · cases hmm : s.expMd5 with
        | none => exact ⟨rfl, rfl, rfl⟩
        | some mv =>
            by_cases hx : mv = s.md5acc
            · simp [hx]
            · simp [hx, internalError, stopAndCleanUp]
  | abortEv =>
      simp only [step, abortFn]
      split_ifs <;> exact ⟨rfl, rfl, rfl⟩

/-- Claim C5: a resumed response whose etag differs from the captured one
fails the session fatally (error notification, no end, nothing retried or
re-requested), regardless of how many bytes were already delivered; and the
metadata captured from the first response is never redefined by any
subsequent event. -/
theorem claim5_etag_enforcement (s : St) (hdr : Headers)
    (b : Option (List Nat)) (e : Ev) :
    (∀ tv : String, s.expEtag = some tv → hdr.etag ≠ some tv →
        (resultFn s (Sum.inr hdr) b).error = some Err.etagMismatch
        ∧ (resultFn s (Sum.inr hdr) b).errCount = s.errCount + 1
        ∧ (resultFn s (Sum.inr hdr) b).endCount = s.endCount
        ∧ (resultFn s (Sum.inr hdr) b).issued = s.issued
        ∧ (resultFn s (Sum.inr hdr) b).retryScheduled = s.retryScheduled
        ∧ (resultFn s (Sum.inr hdr) b).retriesLeft = s.retriesLeft
        ∧ (resultFn s (Sum.inr hdr) b).pushed = s.pushed)
    ∧ (s.expLen.isSome = true →
        (step s e).expLen = s.expLen ∧ (step s e).expMd5 = s.expMd5
        ∧ (step s e).expEtag = s.expEtag) := by
  constructor
  · intro tv hcap hne
    have hcond : ((some tv : Option String).isSome = true ∧
        (some tv : Option String) ≠ hdr.etag) :=
      ⟨rfl, fun hcontra => hne hcontra.symm⟩
    simp only [resultFn, hcap]
    rw [if_pos hcond]
    simp [internalError, stopAndCleanUp]
  · exact meta_immutable s e

/-- Witness for claim C5: a captured etag of a first response that declared
3 bytes, contradicted by a resumed response carrying a different etag; and
metadata immutability under a further demand signal. -/
theorem claim5_etag_enforcement_witness :
    ((resultFn (pendingSt 3 [1] [[1]] none (some 3) (some "a") [none])
        (Sum.inr ⟨some 2, some "b", none⟩) none).error =
          some Err.etagMismatch
      ∧ (resultFn (pendingSt 3 [1] [[1]] none (some 3) (some "a") [none])
          (Sum.inr ⟨some 2, some "b", none⟩) none).errCount =
          (pendingSt 3 [1] [[1]] none (some 3) (some "a") [none]).errCount + 1
      ∧ (resultFn (pendingSt 3 [1] [[1]] none (some 3) (some "a") [none])
          (Sum.inr ⟨some 2, some "b", none⟩) none).endCount =
          (pendingSt 3 [1] [[1]] none (some 3) (some "a") [none]).endCount
      ∧ (resultFn (pendingSt 3 [1] [[1]] none (some 3) (some "a") [none])
          (Sum.inr ⟨some 2, some "b", none⟩) none).issued =
          (pendingSt 3 [1] [[1]] none (some 3) (some "a") [none]).issued
      ∧ (resultFn (pendingSt 3 [1] [[1]] none (some 3) (some "a") [none])
          (Sum.inr ⟨some 2, some "b", none⟩) none).retryScheduled =
          (pendingSt 3 [1] [[1]] none (some 3) (some "a")
            [none]).retryScheduled
      ∧ (resultFn (pendingSt 3 [1] [[1]] none (some 3) (some "a") [none])
          (Sum.inr ⟨some 2, some "b", none⟩) none).retriesLeft =
          (pendingSt 3 [1] [[1]] none (some 3) (some "a") [none]).retriesLeft
      ∧ (resultFn (pendingSt 3 [1] [[1]] none (some 3) (some "a") [none])
          (Sum.inr ⟨some 2, some "b", none⟩) none).pushed =
          (pendingSt 3 [1] [[1]] none (some 3) (some "a") [none]).pushed)
    ∧ ((step (pendingSt 3 [1] [[1]] none (some 3) (some "a") [none])
          (Ev.read none)).expLen =
          (pendingSt 3 [1] [[1]] none (some 3) (some "a") [none]).expLen
      ∧ (step (pendingSt 3 [1] [[1]] none (some 3) (some "a") [none])
          (Ev.read none)).expMd5 =
          (pendingSt 3 [1] [[1]] none (some 3) (some "a") [none]).expMd5
      ∧ (step (pendingSt 3 [1] [[1]] none (some 3) (some "a") [none])
          (Ev.read none)).expEtag =
          (pendingSt 3 [1] [[1]] none (some 3) (some "a") [none]).expEtag) :=
  ⟨(claim5_etag_enforcement
      (pendingSt 3 [1] [[1]] none (some 3) (some "a") [none])
      ⟨some 2, some "b", none⟩ none (Ev.read none)).1 "a" rfl (by decide),
   (claim5_etag_enforcement
      (pendingSt 3 [1] [[1]] none (some 3) (some "a") [none])
      ⟨some 2, some "b", none⟩ none (Ev.read none)).2 rfl⟩

/-- Claim C6: a failed response is retried if and only if it is classified
retryable (no HTTP status code, or a status code at least 500) and the retry
budget grants another attempt.  The retry case surfaces nothing and consumes
one budget grant; any non-retryable failure or exhausted budget immediately
surfaces an error notification carrying the underlying failure itself, with
no new request issued and no budget consumed.  A 4xx status code is never
classified retryable. -/
theorem claim6_retry_classification (s : St) (f : HFail)
    (b : Option (List Nat)) :
    ((retryableB f = true ∧ 0 < s.retriesLeft) →
        (resultFn s (Sum.inl f) b).errCount = s.errCount
        ∧ (resultFn s (Sum.inl f) b).error = s.error
        ∧ (resultFn s (Sum.inl f) b).endCount = s.endCount
        ∧ (resultFn s (Sum.inl f) b).pushed = s.pushed
        ∧ (resultFn s (Sum.inl f) b).retryScheduled = true
        ∧ (resultFn s (Sum.inl f) b).retriesLeft = s.retriesLeft - 1
        ∧ (resultFn s (Sum.inl f) b).issued = s.issued)
    ∧ ((retryableB f = false ∨ s.retriesLeft = 0) →
        (resultFn s (Sum.inl f) b).error = some (Err.http f.statusCode f.id)
        ∧ (resultFn s (Sum.inl f) b).errCount = s.errCount + 1
        ∧ (resultFn s (Sum.inl f) b).endCount = s.endCount
        ∧ (resultFn s (Sum.inl f) b).retriesLeft = s.retriesLeft
        ∧ (resultFn s (Sum.inl f) b).retryScheduled = s.retryScheduled
        ∧ (resultFn s (Sum.inl f) b).issued = s.issued)
    ∧ (∀ c : Nat, f.statusCode = some c → c < 500 → retryableB f = false)
    ∧ (f.statusCode = none → retryableB f = true)
    ∧ (∀ c : Nat, f.statusCode = some c → 500 ≤ c → retryableB f = true) := by
  refine ⟨?_, ?_, ?_, ?_, ?_⟩
  · rintro ⟨h1, h2⟩
    have hc : (retryableB f = true ∧
        0 < ({ s with resultOutstanding := false } : St).retriesLeft) :=
      ⟨h1, h2⟩
    simp only [resultFn]
    rw [if_pos hc]
    exact ⟨rfl, rfl, rfl, rfl, rfl, rfl, rfl⟩
  · intro hor
    have hc : ¬ (retryableB f = true ∧
        0 < ({ s with resultOutstanding := false } : St).retriesLeft) := by
      rcases hor with h | h
      · exact fun hcc => by rw [h] at hcc; exact absurd hcc.1 (by simp)
      · exact fun hcc => absurd hcc.2 (by simp [h])
    simp only [resultFn]
    rw [if_neg hc]
    exact ⟨rfl, rfl, rfl, rfl, rfl, rfl⟩
  · intro c hsc hlt
    simp [retryableB, hsc]
    omega
  · intro hsc
    simp [retryableB, hsc]
  · intro c hsc hge
    simp [retryableB, hsc]
    omega

/-- Witness for claim C6: a 503 failure with budget remaining is retried
silently; a 404 failure is immediately fatal with the failure itself
surfaced and no budget consumed. -/
theorem claim6_retry_classification_witness :
    ((resultFn (awaitSt 3 [] [] none none none [none])
        (Sum.inl ⟨some 503, 7⟩) none).errCount = 0
      ∧ (resultFn (awaitSt 3 [] [] none none none [none])
          (Sum.inl ⟨some 503, 7⟩) none).retryScheduled = true
      ∧ (resultFn (awaitSt 3 [] [] none none none [none])
          (Sum.inl ⟨some 503, 7⟩) none).retriesLeft =
          (awaitSt 3 [] [] none none none [none]).retriesLeft - 1)
    ∧ ((resultFn (awaitSt 3 [] [] none none none [none])
          (Sum.inl ⟨some 404, 9⟩) none).error =
          some (Err.http (some 404) 9)
      ∧ (resultFn (awaitSt 3 [] [] none none none [none])
          (Sum.inl ⟨some 404, 9⟩) none).errCount = 1
      ∧ (resultFn (awaitSt 3 [] [] none none none [none])
          (Sum.inl ⟨some 404, 9⟩) none).retriesLeft =
          (awaitSt 3 [] [] none none none [none]).retriesLeft) := by
  have h1 := (claim6_retry_classification
    (awaitSt 3 [] [] none none none [none]) ⟨some 503, 7⟩ none).1
    ⟨by decide, by decide⟩
  have h2 := (claim6_retry_classification
    (awaitSt 3 [] [] none none none [none]) ⟨some 404, 9⟩ none).2.1
    (Or.inl (by decide))
  exact ⟨⟨h1.1, h1.2.2.2.2.1, h1.2.2.2.2.2.1⟩,
    ⟨h2.1, h2.2.1, h2.2.2.2.1⟩⟩

/-- Claim C9: when the first successful response carried no etag, identity
validation is disabled for the whole session: any resumed response is
accepted no matter what etag it carries (no error, streaming resumes), and
the captured etag stays absent, so later responses with mutually different
etags are all accepted as well. -/
theorem claim9_no_etag_disables_validation (s : St) (hdr : Headers)
    (b : Option (List Nat)) (hcap : s.expLen.isSome = true)
    (hnone : s.expEtag = none) :
    (resultFn s (Sum.inr hdr) b).error = s.error
    ∧ (resultFn s (Sum.inr hdr) b).errCount = s.errCount
    ∧ (resultFn s (Sum.inr hdr) b).hasResponse = true
    ∧ (resultFn s (Sum.inr hdr) b).expEtag = none
    ∧ (resultFn s (Sum.inr hdr) b).expLen = s.expLen := by
  have hno : s.expLen.isNone = false := by
    cases hx : s.expLen with
    | none => rw [hx] at hcap; simp at hcap
    | some v => rfl
  cases b <;> simp [resultFn, hnone, hno, pump]

/-- Witness for claim C9: a session whose first response had no etag accepts
a resumed response with etag x, and then from the resulting state accepts
another resumed response with the different etag y. -/
theorem claim9_no_etag_disables_validation_witness :
    ((resultFn (awaitSt 3 [1] [[1]] none (some 3) none [none])
        (Sum.inr ⟨some 2, some "x", none⟩) none).error = none
      ∧ (resultFn (awaitSt 3 [1] [[1]] none (some 3) none [none])
          (Sum.inr ⟨some 2, some "x", none⟩) none).errCount = 0
      ∧ (resultFn (awaitSt 3 [1] [[1]] none (some 3) none [none])
          (Sum.inr ⟨some 2, some "x", none⟩) none).expEtag = none)
    ∧ ((resultFn (resultFn (awaitSt 3 [1] [[1]] none (some 3) none [none])
          (Sum.inr ⟨some 2, some "x", none⟩) none)
          (Sum.inr ⟨some 2, some "y", none⟩) none).error = none
      ∧ (resultFn (resultFn (awaitSt 3 [1] [[1]] none (some 3) none [none])
          (Sum.inr ⟨some 2, some "x", none⟩) none)
          (Sum.inr ⟨some 2, some "y", none⟩) none).errCount = 0
      ∧ (resultFn (resultFn (awaitSt 3 [1] [[1]] none (some 3) none [none])
          (Sum.inr ⟨some 2, some "x", none⟩) none)
          (Sum.inr ⟨some 2, some "y", none⟩) none).expEtag = none) := by
  have h1 := claim9_no_etag_disables_validation
    (awaitSt 3 [1] [[1]] none (some 3) none [none])
    ⟨some 2, some "x", none⟩ none (by decide) (by decide)
  have h2 := claim9_no_etag_disables_validation
    (resultFn (awaitSt 3 [1] [[1]] none (some 3) none [none])
      (Sum.inr ⟨some 2, some "x", none⟩) none)
    ⟨some 2, some "y", none⟩ none (by decide) (by decide)
  exact ⟨⟨h1.1.trans rfl, h1.2.1.trans rfl, h1.2.2.2.1⟩,
    ⟨h2.1.trans (h1.1.trans rfl), h2.2.1.trans (h1.2.1.trans rfl),
      h2.2.2.2.1⟩⟩

/-- Claim C10: the transient-failure retry budget is per request cycle, not
session-global.  A demand signal that starts a request cycle creates a fresh
retry operation with the full configured budget; the cycle started right
after a premature close likewise gets the full budget; and the only step
that ever decrements the remaining budget is a failed result event (every
other step leaves the budget unchanged or resets it to the full policy). -/
theorem claim10_budget_per_cycle (s : St) (b : Option (List Nat)) (L : Nat) :
    (s.aborted = false → s.error = none → s.reading = false →
      s.hasResponse = false → s.requestPending = false →
      (readFn s b).retriesLeft = s.retryPolicy)
    ∧ (s.expLen = some L → s.nbytesread < L → s.aborted = false →
      s.error = none → s.requestPending = false →
      (responseEnd s).retriesLeft = s.retryPolicy)
    ∧ (∀ e : Ev, (step s e).retriesLeft = s.retriesLeft
        ∨ (step s e).retriesLeft = s.retryPolicy
        ∨ (∃ f b2, e = Ev.result (Sum.inl f) b2
            ∧ (step s e).retriesLeft = s.retriesLeft - 1)) := by
  refine ⟨?_, ?_, ?_⟩
  · intro hab herr hrd hresp hrp
    simp [readFn, hab, herr, hrd, hresp, hrp, makeRequest]
  · intro hL hlt hab herr hrp
    have hbr : s.nbytesread < s.expLen.getD 0 := by rw [hL]; exact hlt
    simp only [responseEnd, if_pos hbr]
    simp [readFn, hab, herr, hrp, makeRequest]
  · intro e
    cases e with
    | read b2 =>
        simp only [step, readFn]
        split_ifs <;>
          first
            | (left; rfl)
            | (left; cases b2 <;> rfl)
            | (simp only [makeRequest]; split_ifs <;> (right; left; rfl))
    | getCb r =>
        left
        cases r with
        | none => simp only [step, getCbFn]; split_ifs <;> rfl
        | some e1 => rfl
    | result r b2 =>
        cases r with
        | inl f =>
            simp only [step, resultFn]
            split_ifs
            · exact Or.inr (Or.inr ⟨f, b2, rfl, rfl⟩)
            · left; rfl
        | inr h =>
            left
            simp only [step, resultFn]
            split_ifs <;> cases b2 <;> rfl
    | retryTimer =>
        left
        simp only [step, makeRequest]
        split_ifs <;> rfl
    | readable b2 => left; cases b2 <;> rfl
    | srcEnd =>
        simp only [step, responseEnd]
        split_ifs
        · simp only [readFn]
          split_ifs <;>
            first
              | (left; rfl)
              | (simp only [makeRequest]; split_ifs <;> (right; left; rfl))
        · cases hmm : s.expMd5 with
          | none => left; rfl
          | some mv =>
              by_cases hx : mv = s.md5acc
              · left; simp [hx]
              · left; simp [hx, internalError, stopAndCleanUp]
    | abortEv =>
        left
        simp only [step, abortFn]
        split_ifs <;> rfl

/-- Witness for claim C10: the first demand signal on a fresh stream with
policy 3 creates a budget of 3; a premature close at 1 of 2 bytes resets the
budget to 3; and an abort step does not change the budget. -/
theorem claim10_budget_per_cycle_witness :
    (readFn (init 3) none).retriesLeft = (init 3).retryPolicy
    ∧ (responseEnd (streamSt 3 [1] [[1]] none 2 none [none])).retriesLeft =
        (streamSt 3 [1] [[1]] none 2 none [none]).retryPolicy
    ∧ ((step (init 3) Ev.abortEv).retriesLeft = (init 3).retriesLeft
        ∨ (step (init 3) Ev.abortEv).retriesLeft = (init 3).retryPolicy
        ∨ (∃ f b2, Ev.abortEv = Ev.result (Sum.inl f) b2
            ∧ (step (init 3) Ev.abortEv).retriesLeft =
              (init 3).retriesLeft - 1)) :=
  ⟨(claim10_budget_per_cycle (init 3) none 0).1 rfl rfl rfl rfl rfl,
   (claim10_budget_per_cycle (streamSt 3 [1] [[1]] none 2 none [none])
      none 2).2.1 rfl (by decide) rfl rfl rfl,
   (claim10_budget_per_cycle (init 3) none 0).2.2 Ev.abortEv⟩

theorem bool_eq_false {x : Bool} (h : ¬ x = true) : x = false := by
  simpa using h

theorem inv_err_none (s : St) (hx : ¬ s.error.isSome = true) :
    s.error = none := by
  cases he : s.error with
  | none => rfl
  | some v => rw [he] at hx; simp at hx

/-- With a response live, no request callback, result event or retry timer
is outstanding. -/
theorem inv_quiet_of_resp (s : St) (h : Inv s) (h4 : s.hasResponse = true) :
    s.getOutstanding = false ∧ s.resultOutstanding = false
    ∧ s.retryScheduled = false := by
  refine ⟨?_, ?_, ?_⟩
  · by_cases hx : s.getOutstanding = true
    · exact absurd h4 (by simp [(h.get_excl hx).2.2])
    · exact bool_eq_false hx
  · by_cases hx : s.resultOutstanding = true
    · exact absurd h4 (by simp [(h.res_excl hx).2])
    · exact bool_eq_false hx
  · by_cases hx : s.retryScheduled = true
    · exact absurd h4 (by simp [h.sched_excl hx])
    · exact bool_eq_false hx

/-- While no read is in progress, no request callback, result event or
retry timer is outstanding. -/
theorem inv_quiet_of_notread (s : St) (h : Inv s) (h3 : ¬ s.reading = true) :
    s.getOutstanding = false ∧ s.resultOutstanding = false
    ∧ s.retryScheduled = false := by
  refine ⟨?_, ?_, ?_⟩
  · by_cases hx : s.getOutstanding = true
    · exact absurd (h.get_read hx) h3
    · exact bool_eq_false hx
  · by_cases hx : s.resultOutstanding = true
    · exact absurd (h.res_read hx) h3
    · exact bool_eq_false hx
  · by_cases hx : s.retryScheduled = true
    · exact absurd (h.sched_read hx) h3
    · exact bool_eq_false hx

theorem inv_end_zero_of_no_src (s : St) (h : Inv s)
    (hx : ¬ s.srcEnded = true) : s.endCount = 0 := by
  by_cases he : 1 ≤ s.endCount
  · exact absurd (h.end_locked he).1 hx
  · omega

theorem inv_end_zero_of_get (s : St) (h : Inv s)
    (hg : s.getOutstanding = true) : s.endCount = 0 := by
  by_cases he : 1 ≤ s.endCount
  · exact absurd hg (by simp [(h.end_locked he).2.2.1])
  · omega

theorem inv_end_zero_of_res (s : St) (h : Inv s)
    (hg : s.resultOutstanding = true) : s.endCount = 0 := by
  by_cases he : 1 ≤ s.endCount
  · exact absurd hg (by simp [(h.end_locked he).2.2.2.1])
  · omega

theorem inv_err_none_of_get (s : St) (h : Inv s)
    (hg : s.getOutstanding = true) : s.error = none := by
  apply inv_err_none s
  intro hx
  exact absurd hg (by simp [(h.err_locked hx).1])

theorem inv_err_none_of_res (s : St) (h : Inv s)
    (hg : s.resultOutstanding = true) : s.error = none := by
  apply inv_err_none s
  intro hx
  exact absurd hg (by simp [(h.err_locked hx).2.1])

theorem inv_step_read (s : St) (b : Option (List Nat)) (h : Inv s) :
    Inv (step s (Ev.read b)) := by
  by_cases h1 : s.aborted = true
  · have hs : step s (Ev.read b) = s := by simp [step, readFn, h1]
    rw [hs]; exact h
  by_cases h2 : s.error.isSome = true
  · have hs : step s (Ev.read b) = s := by simp [step, readFn, h1, h2]
    rw [hs]; exact h
  by_cases h3 : s.reading = true
  · have hs : step s (Ev.read b) = s := by simp [step, readFn, h1, h2, h3]
    rw [hs]; exact h
  have herr : s.error = none := inv_err_none s h2
  by_cases h4 : s.hasResponse = true
  · have hq := inv_quiet_of_resp s h h4
    cases b with
    | none =>
        have hs : step s (Ev.read none) =
            { s with reading := true, waitingReadable := true } := by
          simp [step, readFn, h1, h2, h3, h4, pump]
        rw [hs]
        exact { term_le := h.term_le, err_iff := h.err_iff,
                wait_resp := fun _ => h4,
                res_req := h.res_req,
                get_read := fun _ => rfl,
                res_read := fun _ => rfl,
                sched_read := fun _ => rfl,
                get_excl := fun hx => absurd hx (by simp [hq.1]),
                res_excl := fun hx => absurd hx (by simp [hq.2.1]),
                sched_excl := fun hx => absurd hx (by simp [hq.2.2]),
                err_locked := fun hx => absurd hx h2,
                end_locked := fun he =>
                  ⟨(h.end_locked he).1, h4, hq.1, hq.2.1, hq.2.2⟩,
                abort_locked := fun hx => absurd hx h1 }
    | some buf =>
        have hs : step s (Ev.read (some buf)) =
            { s with reading := false,
                     nbytesread := s.nbytesread + buf.length,
                     md5acc := s.md5acc ++ buf,
                     pushed := s.pushed ++ [buf] } := by
          simp [step, readFn, h1, h2, h3, h4, pump]
        rw [hs]
        exact { term_le := h.term_le, err_iff := h.err_iff,
                wait_resp := h.wait_resp,
                res_req := h.res_req,
                get_read := fun hx => absurd hx (by simp [hq.1]),
                res_read := fun hx => absurd hx (by simp [hq.2.1]),
                sched_read := fun hx => absurd hx (by simp [hq.2.2]),
                get_excl := fun hx => absurd hx (by simp [hq.1]),
                res_excl := fun hx => absurd hx (by simp [hq.2.1]),
                sched_excl := fun hx => absurd hx (by simp [hq.2.2]),
                err_locked := fun hx => absurd hx h2,
                end_locked := fun he =>
                  ⟨(h.end_locked he).1, h4, hq.1, hq.2.1, hq.2.2⟩,
                abort_locked := fun hx => absurd hx h1 }
  have hq := inv_quiet_of_notread s h h3
  by_cases h5 : s.requestPending = true
  · have hs : step s (Ev.read b) = { s with reading := true } := by
      simp [step, readFn, h1, h2, h3, h4, h5]
    rw [hs]
    exact { term_le := h.term_le, err_iff := h.err_iff,
            wait_resp := h.wait_resp,
            res_req := h.res_req,
            get_read := fun _ => rfl,
            res_read := fun _ => rfl,
            sched_read := fun _ => rfl,
            get_excl := fun hx => absurd hx (by simp [hq.1]),
            res_excl := fun hx => absurd hx (by simp [hq.2.1]),
            sched_excl := fun hx => absurd hx (by simp [hq.2.2]),
            err_locked := fun hx => absurd hx h2,
            end_locked := fun he => absurd (h.end_locked he).2.1 h4,
            abort_locked := fun hx => absurd hx h1 }
  · have hs : step s (Ev.read b) =
        { s with reading := true, retriesLeft := s.retryPolicy,
                 requestPending := true, getOutstanding := true,
                 issued := s.issued ++ [rangeFor s.nbytesread] } := by
      simp [step, readFn, h1, h2, h3, h4, h5, makeRequest]
    rw [hs]
    exact { term_le := h.term_le, err_iff := h.err_iff,
            wait_resp := fun hw => absurd (h.wait_resp hw) h4,
            res_req := h.res_req,
            get_read := fun _ => rfl,
            res_read := fun _ => rfl,
            sched_read := fun _ => rfl,
            get_excl := fun _ => ⟨hq.2.1, hq.2.2, bool_eq_false h4⟩,
            res_excl := fun hx => absurd hx (by simp [hq.2.1]),
            sched_excl := fun hx => absurd hx (by simp [hq.2.2]),
            err_locked := fun hx => absurd hx h2,
            end_locked := fun he => absurd (h.end_locked he).2.1 h4,
            abort_locked := fun hx => absurd hx h1 }

theorem inv_step_getCb (s : St) (r : Option Nat) (h : Inv s)
    (hok : evOk s (Ev.getCb r) = true) : Inv (step s (Ev.getCb r)) := by
  have hg : s.getOutstanding = true := hok
  have hrd : s.reading = true := h.get_read hg
  have hx := h.get_excl hg
  have herr : s.error = none := inv_err_none_of_get s h hg
  have herrc : s.errCount = 0 := h.err_iff.mpr herr
  have hend : s.endCount = 0 := inv_end_zero_of_get s h hg
  cases r with
  | some e1 =>
      have hs : step s (Ev.getCb (some e1)) =
          { s with getOutstanding := false, reading := false,
                   error := some (Err.conn e1), errCount := s.errCount + 1,
                   reqCanceled := s.reqCanceled || s.hasRequest,
                   respDestroyed := s.respDestroyed || s.hasResponse } := by
        simp [step, getCbFn, internalError, stopAndCleanUp]
      rw [hs]
      exact { term_le := by simp [hend, herrc],
              err_iff := by simp [herrc],
              wait_resp := h.wait_resp,
              res_req := h.res_req,
              get_read := fun hc => by simp at hc,
              res_read := fun hc => absurd hc (by simp [hx.1]),
              sched_read := fun hc => absurd hc (by simp [hx.2.1]),
              get_excl := fun hc => by simp at hc,
              res_excl := fun hc => absurd hc (by simp [hx.1]),
              sched_excl := fun hc => absurd hc (by simp [hx.2.1]),
              err_locked := fun _ =>
                ⟨rfl, hx.1, hx.2.1, fun hr => by
                  simp only [] at hr ⊢; simp [hr]⟩,
              end_locked := fun he => by
                simp only [] at he; omega,
              abort_locked := fun ha =>
                ⟨fun hr => by simp only [] at hr ⊢; simp [hr],
                 fun hr => by simp only [] at hr ⊢; simp [hr]⟩ }
  | none =>
      by_cases ha : s.aborted = true
      · have hs : step s (Ev.getCb none) =
            { s with getOutstanding := false, hasRequest := true,
                     requestPending := false, reqCanceled := true,
                     respDestroyed := s.respDestroyed || s.hasResponse } := by
          simp [step, getCbFn, ha, stopAndCleanUp]
        rw [hs]
        exact { term_le := h.term_le,
                err_iff := h.err_iff,
                wait_resp := h.wait_resp,
                res_req := fun _ => rfl,
                get_read := fun hc => by simp at hc,
                res_read := fun hc => absurd hc (by simp [hx.1]),
                sched_read := fun hc => absurd hc (by simp [hx.2.1]),
                get_excl := fun hc => by simp at hc,
                res_excl := fun hc => absurd hc (by simp [hx.1]),
                sched_excl := fun hc => absurd hc (by simp [hx.2.1]),
                err_locked := fun hc => by
                  simp only [] at hc; simp [herr] at hc,
                end_locked := fun he => by
                  simp only [] at he; omega,
                abort_locked := fun _ =>
                  ⟨fun hr => by simp only [] at hr ⊢; simp [hr],
                   fun _ => rfl⟩ }
      · have hs : step s (Ev.getCb none) =
            { s with getOutstanding := false, hasRequest := true,
                     requestPending := false, reqCanceled := false,
                     resultOutstanding := true } := by
          simp [step, getCbFn, ha, stopAndCleanUp]
        rw [hs]
        exact { term_le := h.term_le,
                err_iff := h.err_iff,
                wait_resp := h.wait_resp,
                res_req := fun _ => rfl,
                get_read := fun hc => by simp at hc,
                res_read := fun _ => hrd,
                sched_read := fun hc => absurd hc (by simp [hx.2.1]),
                get_excl := fun hc => by simp at hc,
                res_excl := fun _ => ⟨hx.2.1, hx.2.2⟩,
                sched_excl := fun hc => absurd hc (by simp [hx.2.1]),
                err_locked := fun hc => by
                  simp only [] at hc; simp [herr] at hc,
                end_locked := fun he => by
                  simp only [] at he; omega,
                abort_locked := fun hc => absurd hc ha }

theorem inv_step_result (s : St) (r : HFail ⊕ Headers)
    (b : Option (List Nat)) (h : Inv s)
    (hok : evOk s (Ev.result r b) = true) : Inv (step s (Ev.result r b)) := by
  have hro : s.resultOutstanding = true := by
    simp only [evOk, Bool.and_eq_true] at hok
    exact hok.1
  have hrd : s.reading = true := h.res_read hro
  have hreq : s.hasRequest = true := h.res_req hro
  have hx := h.res_excl hro
  have hgo : s.getOutstanding = false := by
    by_cases hc : s.getOutstanding = true
    · exact absurd hro (by simp [(h.get_excl hc).1])
    · exact bool_eq_false hc
  have herr : s.error = none := inv_err_none_of_res s h hro
  have herrc : s.errCount = 0 := h.err_iff.mpr herr
  have hend : s.endCount = 0 := inv_end_zero_of_res s h hro
  cases r with
  | inl f =>
      by_cases hcnd : (retryableB f = true ∧ 0 < s.retriesLeft)
      · have hs : step s (Ev.result (Sum.inl f) b) =
            { s with resultOutstanding := false, hasRequest := false,
                     retriesLeft := s.retriesLeft - 1,
                     retryScheduled := true } := by
          simp [step, resultFn, hcnd.1, hcnd.2]
        rw [hs]
        exact { term_le := h.term_le, err_iff := h.err_iff,
                wait_resp := h.wait_resp,
                res_req := fun hc => by simp at hc,
                get_read := fun hc => by
                  simp only [] at hc; simp [hgo] at hc,
                res_read := fun hc => by simp at hc,
                sched_read := fun _ => hrd,
                get_excl := fun hc => by
                  simp only [] at hc; simp [hgo] at hc,
                res_excl := fun hc => by simp at hc,
                sched_excl := fun _ => hx.2,
                err_locked := fun hc => by
                  simp only [] at hc; simp [herr] at hc,
                end_locked := fun he => by simp only [] at he; omega,
                abort_locked := fun ha =>
                  ⟨(h.abort_locked ha).1, fun hr => by simp at hr⟩ }
      · have hs : step s (Ev.result (Sum.inl f) b) =
            { s with resultOutstanding := false, reading := false,
                     error := some (Err.http f.statusCode f.id),
                     errCount := s.errCount + 1,
                     reqCanceled := s.reqCanceled || s.hasRequest,
                     respDestroyed := s.respDestroyed || s.hasResponse } := by
          have hcnd2 : ¬ (retryableB f = true ∧
              0 < ({ s with resultOutstanding := false } : St).retriesLeft) :=
            hcnd
          simp only [step, resultFn]
          rw [if_neg hcnd2]
          simp [internalError, stopAndCleanUp]
        rw [hs]
        exact { term_le := by simp [hend, herrc],
                err_iff := by simp [herrc],
                wait_resp := h.wait_resp,
                res_req := fun hc => by simp at hc,
                get_read := fun hc => by
                  simp only [] at hc; simp [hgo] at hc,
                res_read := fun hc => by simp at hc,
                sched_read := fun hc => by
                  simp only [] at hc; simp [hx.1] at hc,
                get_excl := fun hc => by
                  simp only [] at hc; simp [hgo] at hc,
                res_excl := fun hc => by simp at hc,
                sched_excl := fun hc => by
                  simp only [] at hc; simp [hx.1] at hc,
                err_locked := fun _ =>
                  ⟨hgo, rfl, hx.1, fun hr => by
                    simp only [] at hr ⊢; simp [hr]⟩,
                end_locked := fun he => by simp only [] at he; omega,
                abort_locked := fun ha =>
                  ⟨fun hr => by simp only [] at hr ⊢; simp [hr],
                   fun hr => by simp only [] at hr ⊢; simp [hr]⟩ }
  | inr hdr =>
      have hnc : s.reqCanceled = false := by
        simp only [evOk, Bool.and_eq_true] at hok
        simpa using hok.2
      have habf : s.aborted = false := by
        by_cases hab : s.aborted = true
        · exact absurd ((h.abort_locked hab).2 hreq) (by simp [hnc])
        · exact bool_eq_false hab
      by_cases het : (s.expEtag.isSome = true ∧ s.expEtag ≠ hdr.etag)
      · have hs : step s (Ev.result (Sum.inr hdr) b) =
            { s with resultOutstanding := false, hasResponse := true,
                     srcEnded := false, reading := false,
                     error := some Err.etagMismatch,
                     errCount := s.errCount + 1,
                     reqCanceled := s.reqCanceled || s.hasRequest,
                     respDestroyed := true } := by
          have het2 : (({ s with resultOutstanding := false, hasResponse := true, respDestroyed := false, srcEnded := false } : St).expEtag.isSome = true ∧ ({ s with resultOutstanding := false, hasResponse := true, respDestroyed := false, srcEnded := false } : St).expEtag ≠ hdr.etag) := het
          simp only [step, resultFn]
          rw [if_pos het2]
          simp [internalError, stopAndCleanUp]
        rw [hs]
        exact { term_le := by simp [hend, herrc],
                err_iff := by simp [herrc],
                wait_resp := fun _ => rfl,
                res_req := fun hc => by simp at hc,
                get_read := fun hc => by
                  simp only [] at hc; simp [hgo] at hc,
                res_read := fun hc => by simp at hc,
                sched_read := fun hc => by
                  simp only [] at hc; simp [hx.1] at hc,
                get_excl := fun hc => by
                  simp only [] at hc; simp [hgo] at hc,
                res_excl := fun hc => by simp at hc,
                sched_excl := fun hc => by
                  simp only [] at hc; simp [hx.1] at hc,
                err_locked := fun _ => ⟨hgo, rfl, hx.1, fun _ => rfl⟩,
                end_locked := fun he => by simp only [] at he; omega,
                abort_locked := fun _ =>
                  ⟨fun _ => rfl,
                   fun hr => by simp only [] at hr ⊢; simp [hr]⟩ }
      · have het2 : ¬ (({ s with resultOutstanding := false, hasResponse := true, respDestroyed := false, srcEnded := false } : St).expEtag.isSome = true ∧ ({ s with resultOutstanding := false, hasResponse := true, respDestroyed := false, srcEnded := false } : St).expEtag ≠ hdr.etag) := het
        by_cases hcap : s.expLen.isNone = true
        · cases b with
          | none =>
              have hs : step s (Ev.result (Sum.inr hdr) none) =
                  { s with resultOutstanding := false, hasResponse := true,
                           respDestroyed := false, srcEnded := false,
                           expMd5 := hdr.contentMd5,
                           expLen := some (hdr.contentLength.getD 0),
                           expEtag := hdr.etag,
                           waitingReadable := true } := by
                simp only [step, resultFn]
                rw [if_neg het2]
                simp [hcap, pump]
              rw [hs]
              exact { term_le := h.term_le, err_iff := h.err_iff,
                      wait_resp := fun _ => rfl,
                      res_req := fun hc => by simp at hc,
                      get_read := fun hc => by
                        simp only [] at hc; simp [hgo] at hc,
                      res_read := fun hc => by simp at hc,
                      sched_read := fun _ => hrd,
                      get_excl := fun hc => by
                        simp only [] at hc; simp [hgo] at hc,
                      res_excl := fun hc => by simp at hc,
                      sched_excl := fun hc => by
                        simp only [] at hc; simp [hx.1] at hc,
                      err_locked := fun hc => by
                        simp only [] at hc; simp [herr] at hc,
                      end_locked := fun he => by simp only [] at he; omega,
                      abort_locked := fun hc => by
                        simp only [] at hc; simp [habf] at hc }
          | some buf =>
              have hs : step s (Ev.result (Sum.inr hdr) (some buf)) =
                  { s with resultOutstanding := false, hasResponse := true,
                           respDestroyed := false, srcEnded := false,
                           expMd5 := hdr.contentMd5,
                           expLen := some (hdr.contentLength.getD 0),
                           expEtag := hdr.etag,
                           nbytesread := s.nbytesread + buf.length,
                           md5acc := s.md5acc ++ buf,
                           reading := false,
                           pushed := s.pushed ++ [buf] } := by
                simp only [step, resultFn]
                rw [if_neg het2]
                simp [hcap, pump]
              rw [hs]
              exact { term_le := h.term_le, err_iff := h.err_iff,
                      wait_resp := fun _ => rfl,
                      res_req := fun hc => by simp at hc,
                      get_read := fun hc => by
                        simp only [] at hc; simp [hgo] at hc,
                      res_read := fun hc => by simp at hc,
                      sched_read := fun hc => by
                        simp only [] at hc; simp [hx.1] at hc,
                      get_excl := fun hc => by
                        simp only [] at hc; simp [hgo] at hc,
                      res_excl := fun hc => by simp at hc,
                      sched_excl := fun hc => by
                        simp only [] at hc; simp [hx.1] at hc,
                      err_locked := fun hc => by
                        simp only [] at hc; simp [herr] at hc,
                      end_locked := fun he => by simp only [] at he; omega,
                      abort_locked := fun hc => by
                        simp only [] at hc; simp [habf] at hc }
        · cases b with
          | none =>
              have hs : step s (Ev.result (Sum.inr hdr) none) =
                  { s with resultOutstanding := false, hasResponse := true,
                           respDestroyed := false, srcEnded := false,
                           waitingReadable := true } := by
                simp only [step, resultFn]
                rw [if_neg het2]
                simp [hcap, pump]
              rw [hs]
              exact { term_le := h.term_le, err_iff := h.err_iff,
                      wait_resp := fun _ => rfl,
                      res_req := fun hc => by simp at hc,
                      get_read := fun hc => by
                        simp only [] at hc; simp [hgo] at hc,
                      res_read := fun hc => by simp at hc,
                      sched_read := fun _ => hrd,
                      get_excl := fun hc => by
                        simp only [] at hc; simp [hgo] at hc,
                      res_excl := fun hc => by simp at hc,
                      sched_excl := fun hc => by
                        simp only [] at hc; simp [hx.1] at hc,
                      err_locked := fun hc => by
                        simp only [] at hc; simp [herr] at hc,
                      end_locked := fun he => by simp only [] at he; omega,
                      abort_locked := fun hc => by
                        simp only [] at hc; simp [habf] at hc }
          | some buf =>
              have hs : step s (Ev.result (Sum.inr hdr) (some buf)) =
                  { s with resultOutstanding := false, hasResponse := true,
                           respDestroyed := false, srcEnded := false,
                           nbytesread := s.nbytesread + buf.length,
                           md5acc := s.md5acc ++ buf,
                           reading := false,
                           pushed := s.pushed ++ [buf] } := by
                simp only [step, resultFn]
                rw [if_neg het2]
                simp [hcap, pump]
              rw [hs]
              exact { term_le := h.term_le, err_iff := h.err_iff,
                      wait_resp := fun _ => rfl,
                      res_req := fun hc => by simp at hc,
                      get_read := fun hc => by
                        simp only [] at hc; simp [hgo] at hc,
                      res_read := fun hc => by simp at hc,
                      sched_read := fun hc => by
                        simp only [] at hc; simp [hx.1] at hc,
                      get_excl := fun hc => by
                        simp only [] at hc; simp [hgo] at hc,
                      res_excl := fun hc => by simp at hc,
                      sched_excl := fun hc => by
                        simp only [] at hc; simp [hx.1] at hc,
                      err_locked := fun hc => by
                        simp only [] at hc; simp [herr] at hc,
                      end_locked := fun he => by simp only [] at he; omega,
                      abort_locked := fun hc => by
                        simp only [] at hc; simp [habf] at hc }

theorem inv_step_retryTimer (s : St) (h : Inv s)
    (hok : evOk s Ev.retryTimer = true) : Inv (step s Ev.retryTimer) := by
  have hsc : s.retryScheduled = true := hok
  have hrd : s.reading = true := h.sched_read hsc
  have hresp : s.hasResponse = false := h.sched_excl hsc
  have hgo : s.getOutstanding = false := by
    by_cases hc : s.getOutstanding = true
    · exact absurd hsc (by simp [(h.get_excl hc).2.1])
    · exact bool_eq_false hc
  have hro : s.resultOutstanding = false := by
    by_cases hc : s.resultOutstanding = true
    · exact absurd hsc (by simp [(h.res_excl hc).1])
    · exact bool_eq_false hc
  have herr : s.error = none := by
    apply inv_err_none s
    intro hxe
    exact absurd hsc (by simp [(h.err_locked hxe).2.2.1])
  have hend : s.endCount = 0 := by
    by_cases he : 1 ≤ s.endCount
    · exact absurd hsc (by simp [(h.end_locked he).2.2.2.2])
    · omega
  by_cases hab : s.aborted = true
  · have hs : step s Ev.retryTimer =
        { s with retryScheduled := false, reading := false } := by
      simp [step, makeRequest, hab]
    rw [hs]
    exact { term_le := h.term_le, err_iff := h.err_iff,
            wait_resp := h.wait_resp,
            res_req := fun hc => by simp only [] at hc; simp [hro] at hc,
            get_read := fun hc => by simp only [] at hc; simp [hgo] at hc,
            res_read := fun hc => by simp only [] at hc; simp [hro] at hc,
            sched_read := fun hc => by simp at hc,
            get_excl := fun hc => by simp only [] at hc; simp [hgo] at hc,
            res_excl := fun hc => by simp only [] at hc; simp [hro] at hc,
            sched_excl := fun hc => by simp at hc,
            err_locked := fun hc => by
              simp only [] at hc; simp [herr] at hc,
            end_locked := fun he => by simp only [] at he; omega,
            abort_locked := h.abort_locked }
  · have hs : step s Ev.retryTimer =
        { s with retryScheduled := false, requestPending := true,
                 getOutstanding := true,
                 issued := s.issued ++ [rangeFor s.nbytesread] } := by
      simp [step, makeRequest, hab]
    rw [hs]
    exact { term_le := h.term_le, err_iff := h.err_iff,
            wait_resp := h.wait_resp,
            res_req := fun hc => by simp only [] at hc; simp [hro] at hc,
            get_read := fun _ => hrd,
            res_read := fun hc => by simp only [] at hc; simp [hro] at hc,
            sched_read := fun hc => by simp at hc,
            get_excl := fun _ => ⟨hro, rfl, hresp⟩,
            res_excl := fun hc => by simp only [] at hc; simp [hro] at hc,
            sched_excl := fun hc => by simp at hc,
            err_locked := fun hc => by
              simp only [] at hc; simp [herr] at hc,
            end_locked := fun he => by simp only [] at he; omega,
            abort_locked := fun hc => by
              simp only [] at hc; simp [hab] at hc }

theorem inv_step_readable (s : St) (b : Option (List Nat)) (h : Inv s)
    (hok : evOk s (Ev.readable b) = true) : Inv (step s (Ev.readable b)) := by
  have hw : s.waitingReadable = true ∧ s.respDestroyed = false
      ∧ s.srcEnded = false := by
    simp only [evOk, Bool.and_eq_true, Bool.not_eq_true'] at hok
    exact ⟨hok.1.1, hok.1.2, hok.2⟩
  have hresp : s.hasResponse = true := h.wait_resp hw.1
  have hq := inv_quiet_of_resp s h hresp
  have herr : s.error = none := by
    apply inv_err_none s
    intro hxe
    exact absurd ((h.err_locked hxe).2.2.2 hresp) (by simp [hw.2.1])
  have hend : s.endCount = 0 :=
    inv_end_zero_of_no_src s h (by simp [hw.2.2])
  have habf : s.aborted = false := by
    by_cases hab : s.aborted = true
    · exact absurd ((h.abort_locked hab).1 hresp) (by simp [hw.2.1])
    · exact bool_eq_false hab
  cases b with
  | none =>
      have hs : step s (Ev.readable none) =
          { s with waitingReadable := true } := by
        simp [step, pump]
      rw [hs]
      exact { term_le := h.term_le, err_iff := h.err_iff,
              wait_resp := fun _ => hresp,
              res_req := h.res_req,
              get_read := fun hc => by simp only [] at hc; simp [hq.1] at hc,
              res_read := fun hc => by
                simp only [] at hc; simp [hq.2.1] at hc,
              sched_read := fun hc => by
                simp only [] at hc; simp [hq.2.2] at hc,
              get_excl := fun hc => by simp only [] at hc; simp [hq.1] at hc,
              res_excl := fun hc => by
                simp only [] at hc; simp [hq.2.1] at hc,
              sched_excl := fun hc => by
                simp only [] at hc; simp [hq.2.2] at hc,
              err_locked := fun hc => by
                simp only [] at hc; simp [herr] at hc,
              end_locked := fun he => by simp only [] at he; omega,
              abort_locked := fun hc => by
                simp only [] at hc; simp [habf] at hc }
  | some buf =>
      have hs : step s (Ev.readable (some buf)) =
          { s with waitingReadable := false, reading := false,
                   nbytesread := s.nbytesread + buf.length,
                   md5acc := s.md5acc ++ buf,
                   pushed := s.pushed ++ [buf] } := by
        simp [step, pump]
      rw [hs]
      exact { term_le := h.term_le, err_iff := h.err_iff,
              wait_resp := fun hc => by simp at hc,
              res_req := h.res_req,
              get_read := fun hc => by simp only [] at hc; simp [hq.1] at hc,
              res_read := fun hc => by
                simp only [] at hc; simp [hq.2.1] at hc,
              sched_read := fun hc => by
                simp only [] at hc; simp [hq.2.2] at hc,
              get_excl := fun hc => by simp only [] at hc; simp [hq.1] at hc,
              res_excl := fun hc => by
                simp only [] at hc; simp [hq.2.1] at hc,
              sched_excl := fun hc => by
                simp only [] at hc; simp [hq.2.2] at hc,
              err_locked := fun hc => by
                simp only [] at hc; simp [herr] at hc,
              end_locked := fun he => by simp only [] at he; omega,
              abort_locked := fun hc => by
                simp only [] at hc; simp [habf] at hc }

theorem inv_step_srcEnd (s : St) (h : Inv s)
    (hok : evOk s Ev.srcEnd = true) : Inv (step s Ev.srcEnd) := by
  have hw : s.hasResponse = true ∧ s.respDestroyed = false
      ∧ s.srcEnded = false := by
    simp only [evOk, Bool.and_eq_true, Bool.not_eq_true'] at hok
    exact ⟨hok.1.1, hok.1.2, hok.2⟩
  have hresp : s.hasResponse = true := hw.1
  have hq := inv_quiet_of_resp s h hresp
  have herr : s.error = none := by
    apply inv_err_none s
    intro hxe
    exact absurd ((h.err_locked hxe).2.2.2 hresp) (by simp [hw.2.1])
  have herrc : s.errCount = 0 := h.err_iff.mpr herr
  have hend : s.endCount = 0 :=
    inv_end_zero_of_no_src s h (by simp [hw.2.2])
  have habf : s.aborted = false := by
    by_cases hab : s.aborted = true
    · exact absurd ((h.abort_locked hab).1 hresp) (by simp [hw.2.1])
    · exact bool_eq_false hab
  by_cases hlt : s.nbytesread < s.expLen.getD 0
  · by_cases h5 : s.requestPending = true
    · have hs : step s Ev.srcEnd =
          { s with srcEnded := false, waitingReadable := false,
                   hasRequest := false, hasResponse := false,
                   reqCanceled := false, respDestroyed := false,
                   reading := true } := by
        simp [step, responseEnd, readFn, hlt, habf, herr, h5]
      rw [hs]
      exact { term_le := h.term_le, err_iff := h.err_iff,
              wait_resp := fun hc => by simp at hc,
              res_req := fun hc => by
                simp only [] at hc; simp [hq.2.1] at hc,
              get_read := fun _ => rfl,
              res_read := fun _ => rfl,
              sched_read := fun _ => rfl,
              get_excl := fun hc => by simp only [] at hc; simp [hq.1] at hc,
              res_excl := fun hc => by
                simp only [] at hc; simp [hq.2.1] at hc,
              sched_excl := fun hc => by
                simp only [] at hc; simp [hq.2.2] at hc,
              err_locked := fun hc => by
                simp only [] at hc; simp [herr] at hc,
              end_locked := fun he => by simp only [] at he; omega,
              abort_locked := fun hc => by
                simp only [] at hc; simp [habf] at hc }
    · have hs : step s Ev.srcEnd =
          { s with srcEnded := false, waitingReadable := false,
                   hasRequest := false, hasResponse := false,
                   reqCanceled := false, respDestroyed := false,
                   reading := true, retriesLeft := s.retryPolicy,
                   requestPending := true, getOutstanding := true,
                   issued := s.issued ++ [rangeFor s.nbytesread] } := by
        simp [step, responseEnd, readFn, hlt, habf, herr, h5, makeRequest]
      rw [hs]
      exact { term_le := h.term_le, err_iff := h.err_iff,
              wait_resp := fun hc => by simp at hc,
              res_req := fun hc => by
                simp only [] at hc; simp [hq.2.1] at hc,
              get_read := fun _ => rfl,
              res_read := fun _ => rfl,
              sched_read := fun _ => rfl,
              get_excl := fun _ => ⟨hq.2.1, hq.2.2, rfl⟩,
              res_excl := fun hc => by
                simp only [] at hc; simp [hq.2.1] at hc,
              sched_excl := fun hc => by
                simp only [] at hc; simp [hq.2.2] at hc,
              err_locked := fun hc => by
                simp only [] at hc; simp [herr] at hc,
              end_locked := fun he => by simp only [] at he; omega,
              abort_locked := fun hc => by
                simp only [] at hc; simp [habf] at hc }
  · cases hmm : s.expMd5 with
    | none =>
        have hs : step s Ev.srcEnd =
            { s with srcEnded := true, endCount := s.endCount + 1 } := by
          simp [step, responseEnd, hlt, hmm]
        rw [hs]
        exact { term_le := by simp [hend, herrc],
                err_iff := h.err_iff,
                wait_resp := h.wait_resp,
                res_req := h.res_req,
                get_read := h.get_read,
                res_read := h.res_read,
                sched_read := h.sched_read,
                get_excl := h.get_excl,
                res_excl := h.res_excl,
                sched_excl := h.sched_excl,
                err_locked := fun hc => by
                  simp only [] at hc; simp [herr] at hc,
                end_locked := fun _ => ⟨rfl, hresp, hq.1, hq.2.1, hq.2.2⟩,
                abort_locked := fun hc => by
                  simp only [] at hc; simp [habf] at hc }
    | some mv =>
        by_cases hmx : mv = s.md5acc
        · have hs : step s Ev.srcEnd =
              { s with srcEnded := true, endCount := s.endCount + 1 } := by
            simp [step, responseEnd, hlt, hmm, hmx]
          rw [hs]
          exact { term_le := by simp [hend, herrc],
                  err_iff := h.err_iff,
                  wait_resp := h.wait_resp,
                  res_req := h.res_req,
                  get_read := h.get_read,
                  res_read := h.res_read,
                  sched_read := h.sched_read,
                  get_excl := h.get_excl,
                  res_excl := h.res_excl,
                  sched_excl := h.sched_excl,
                  err_locked := fun hc => by
                    simp only [] at hc; simp [herr] at hc,
                  end_locked := fun _ => ⟨rfl, hresp, hq.1, hq.2.1, hq.2.2⟩,
                  abort_locked := fun hc => by
                    simp only [] at hc; simp [habf] at hc }
        · have hs : step s Ev.srcEnd =
              { s with srcEnded := true,
                       error := some (Err.md5Mismatch mv s.md5acc),
                       errCount := s.errCount + 1,
                       reqCanceled := s.reqCanceled || s.hasRequest,
                       respDestroyed := true } := by
            simp [step, responseEnd, hlt, hmm, hmx, internalError,
              stopAndCleanUp, hresp]
          rw [hs]
          exact { term_le := by simp [hend, herrc],
                  err_iff := by simp [herrc],
                  wait_resp := h.wait_resp,
                  res_req := h.res_req,
                  get_read := h.get_read,
                  res_read := h.res_read,
                  sched_read := h.sched_read,
                  get_excl := fun hc => by
                    simp only [] at hc; simp [hq.1] at hc,
                  res_excl := fun hc => by
                    simp only [] at hc; simp [hq.2.1] at hc,
                  sched_excl := fun hc => by
                    simp only [] at hc; simp [hq.2.2] at hc,
                  err_locked := fun _ => ⟨hq.1, hq.2.1, hq.2.2, fun _ => rfl⟩,
                  end_locked := fun he => by simp only [] at he; omega,
                  abort_locked := fun hc => by
                    simp only [] at hc; simp [habf] at hc }

theorem inv_step_abort (s : St) (h : Inv s) : Inv (step s Ev.abortEv) := by
  by_cases hab : s.aborted = true
  · have hs : step s Ev.abortEv = s := by simp [step, abortFn, hab]
    rw [hs]; exact h
  · have hs : step s Ev.abortEv =
        { s with aborted := true,
                 reqCanceled := s.reqCanceled || s.hasRequest,
                 respDestroyed := s.respDestroyed || s.hasResponse } := by
      simp [step, abortFn, hab, stopAndCleanUp]
    rw [hs]
    exact { term_le := h.term_le, err_iff := h.err_iff,
            wait_resp := h.wait_resp,
            res_req := h.res_req,
            get_read := h.get_read,
            res_read := h.res_read,
            sched_read := h.sched_read,
            get_excl := h.get_excl,
            res_excl := h.res_excl,
            sched_excl := h.sched_excl,
            err_locked := fun hxe => by
              simp only [] at hxe
              refine ⟨(h.err_locked hxe).1, (h.err_locked hxe).2.1,
                (h.err_locked hxe).2.2.1, fun hr => ?_⟩
              simp only [] at hr ⊢
              simp [(h.err_locked hxe).2.2.2 hr]
            end_locked := fun he => by
              simp only [] at he
              exact (h.end_locked he),
            abort_locked := fun _ =>
              ⟨fun hr => by simp only [] at hr ⊢; simp [hr],
               fun hr => by simp only [] at hr ⊢; simp [hr]⟩ }

theorem inv_step (s : St) (e : Ev) (h : Inv s) (hok : evOk s e = true) :
    Inv (step s e) := by
  cases e with
  | read b => exact inv_step_read s b h
  | getCb r => exact inv_step_getCb s r h hok
  | result r b => exact inv_step_result s r b h hok
  | retryTimer => exact inv_step_retryTimer s h hok
  | readable b => exact inv_step_readable s b h hok
  | srcEnd => exact inv_step_srcEnd s h hok
  | abortEv => exact inv_step_abort s h

theorem inv_init (pol : Nat) : Inv (init pol) := by
  constructor <;> simp [init]

theorem inv_run (tr : List Ev) :
    ∀ s : St, Inv s → wfB s tr = true → Inv (run s tr) := by
  induction tr with
  | nil => intro s h _; exact h
  | cons e tr ih =>
      intro s h hwf
      simp only [wfB, Bool.and_eq_true] at hwf
      exact ih (step s e) (inv_step s e h hwf.1) hwf.2

/-- Claim C7 (amended): for every well-formed sequence of responses,
failures and consumer demand signals, at most one terminal notification
(end or error, and never both) is ever delivered to the consumer.  The
original claim also asserted that exactly one is delivered unless the
session is aborted; that part fails on the code (see the counterexample):
a session whose upstream never answers delivers none. -/
theorem claim7_at_most_one_terminal (pol : Nat) (tr : List Ev)
    (hwf : wfB (init pol) tr = true) :
    (run (init pol) tr).endCount + (run (init pol) tr).errCount ≤ 1 :=
  (inv_run tr (init pol) (inv_init pol) hwf).term_le

/-- Witness for claim C7 at a concrete trace that ends in a fatal
connection error. -/
theorem claim7_at_most_one_terminal_witness :
    wfB (init 3) [Ev.read none, Ev.getCb (some 0)] = true
    ∧ (run (init 3) [Ev.read none, Ev.getCb (some 0)]).endCount +
        (run (init 3) [Ev.read none, Ev.getCb (some 0)]).errCount ≤ 1 :=
  ⟨by decide, claim7_at_most_one_terminal 3
    [Ev.read none, Ev.getCb (some 0)] (by decide)⟩

/-- Counterexample for claim C7 as stated: the conjunct "exactly one
terminal notification is delivered unless the session is aborted" is false.
In the well-formed sequence in which the consumer demands data once and the
upstream never answers the request, the session is never aborted and yet no
terminal notification is ever delivered. -/
theorem claim7_exactly_one_counterexample :
    wfB (init 3) [Ev.read none] = true
    ∧ (run (init 3) [Ev.read none]).aborted = false
    ∧ (run (init 3) [Ev.read none]).endCount +
        (run (init 3) [Ev.read none]).errCount = 0 := by decide

theorem errLocked_step (s : St) (e : Ev) (h : ErrLocked s)
    (hok : evOk s e = true) :
    ErrLocked (step s e) ∧ (step s e).endCount = s.endCount
    ∧ (step s e).errCount = s.errCount ∧ (step s e).pushed = s.pushed := by
  obtain ⟨he, hg, hr, hsc, hrd, hwr⟩ := h
  cases e with
  | read b =>
      have hs : step s (Ev.read b) = s := by
        by_cases h1 : s.aborted = true
        · simp [step, readFn, h1]
        · simp [step, readFn, h1, he]
      rw [hs]; exact ⟨⟨he, hg, hr, hsc, hrd, hwr⟩, rfl, rfl, rfl⟩
  | getCb r => exact absurd hok (by simp [evOk, hg])
  | result r b => exact absurd hok (by simp [evOk, hr])
  | retryTimer => exact absurd hok (by simp [evOk, hsc])
  | readable b =>
      exfalso
      simp only [evOk, Bool.and_eq_true, Bool.not_eq_true'] at hok
      exact absurd (hrd (hwr hok.1.1)) (by simp [hok.1.2])
  | srcEnd =>
      exfalso
      simp only [evOk, Bool.and_eq_true, Bool.not_eq_true'] at hok
      exact absurd (hrd hok.1.1) (by simp [hok.1.2])
  | abortEv =>
      by_cases hab : s.aborted = true
      · have hs : step s Ev.abortEv = s := by simp [step, abortFn, hab]
        rw [hs]; exact ⟨⟨he, hg, hr, hsc, hrd, hwr⟩, rfl, rfl, rfl⟩
      · have hs : step s Ev.abortEv =
            { s with aborted := true,
                     reqCanceled := s.reqCanceled || s.hasRequest,
                     respDestroyed := s.respDestroyed || s.hasResponse } := by
          simp [step, abortFn, hab, stopAndCleanUp]
        rw [hs]
        refine ⟨⟨he, hg, hr, hsc, fun hresp => ?_, hwr⟩, rfl, rfl, rfl⟩
        simp only [] at hresp ⊢
        simp [hrd hresp]

theorem errLocked_run (tr : List Ev) :
    ∀ s : St, ErrLocked s → wfB s tr = true →
    (run s tr).endCount = s.endCount ∧ (run s tr).errCount = s.errCount
    ∧ (run s tr).pushed = s.pushed := by
  induction tr with
  | nil => intro s _ _; exact ⟨rfl, rfl, rfl⟩
  | cons e tr ih =>
      intro s h hwf
      simp only [wfB, Bool.and_eq_true] at hwf
      have hstep := errLocked_step s e h hwf.1
      have hrec := ih (step s e) hstep.1 hwf.2
      exact ⟨hrec.1.trans hstep.2.1, hrec.2.1.trans hstep.2.2.1,
        hrec.2.2.trans hstep.2.2.2⟩

/-- Claim C4: when the first response declared a checksum and, at
completion time, it does not match the checksum of all bytes delivered, the
close surfaces exactly one error notification and the end notification is
not delivered then and never afterwards along any well-formed continuation;
when no checksum was declared, verification is skipped and the length-based
completion check alone decides (the stream ends with no error). -/
theorem claim4_checksum_enforcement (s : St) (L : Nat) (m : List Nat)
    (tr : List Ev) (hL : s.expLen = some L) (hge : L ≤ s.nbytesread)
    (hg : s.getOutstanding = false) (hro : s.resultOutstanding = false)
    (hrs : s.retryScheduled = false)
    (hwr : s.waitingReadable = true → s.hasResponse = true) :
    (s.expMd5 = some m → m ≠ s.md5acc →
        (responseEnd s).error = some (Err.md5Mismatch m s.md5acc)
        ∧ (responseEnd s).errCount = s.errCount + 1
        ∧ (responseEnd s).endCount = s.endCount
        ∧ (wfB (responseEnd s) tr = true →
            (run (responseEnd s) tr).endCount = s.endCount))
    ∧ (s.expMd5 = none →
        (responseEnd s).endCount = s.endCount + 1
        ∧ (responseEnd s).errCount = s.errCount
        ∧ (responseEnd s).error = s.error) := by
  have hbr : ¬ s.nbytesread < s.expLen.getD 0 := by
    rw [hL]; simpa using Nat.not_lt.mpr hge
  constructor
  · intro hm hne
    have hre : responseEnd s =
        { s with error := some (Err.md5Mismatch m s.md5acc),
                 errCount := s.errCount + 1,
                 reqCanceled := s.reqCanceled || s.hasRequest,
                 respDestroyed := s.respDestroyed || s.hasResponse } := by
      simp [responseEnd, hbr, hm, hne, internalError, stopAndCleanUp]
    rw [hre]
    refine ⟨rfl, rfl, rfl, fun hwf => ?_⟩
    have hlock : ErrLocked
        { s with error := some (Err.md5Mismatch m s.md5acc),
                 errCount := s.errCount + 1,
                 reqCanceled := s.reqCanceled || s.hasRequest,
                 respDestroyed := s.respDestroyed || s.hasResponse } := by
      refine ⟨rfl, hg, hro, hrs, fun hresp => ?_, hwr⟩
      simp only [] at hresp ⊢
      simp [hresp]
    exact (errLocked_run tr _ hlock hwf).1
  · intro hm
    have hre : responseEnd s = { s with endCount := s.endCount + 1 } := by
      simp [responseEnd, hbr, hm]
    rw [hre]
    exact ⟨rfl, rfl, rfl⟩

/-- Witness for claim C4: a completed 3-byte stream whose declared checksum
is wrong errors out and never ends, also after two more events; a completed
1-byte stream with no declared checksum ends cleanly. -/
theorem claim4_checksum_enforcement_witness :
    ((responseEnd (streamSt 3 [1, 2, 3] [[1, 2, 3]] (some [9]) 3 none
        [none])).error = some (Err.md5Mismatch [9] [1, 2, 3])
      ∧ (responseEnd (streamSt 3 [1, 2, 3] [[1, 2, 3]] (some [9]) 3 none
          [none])).errCount =
        (streamSt 3 [1, 2, 3] [[1, 2, 3]] (some [9]) 3 none
          [none]).errCount + 1
      ∧ (responseEnd (streamSt 3 [1, 2, 3] [[1, 2, 3]] (some [9]) 3 none
          [none])).endCount =
        (streamSt 3 [1, 2, 3] [[1, 2, 3]] (some [9]) 3 none [none]).endCount
      ∧ (wfB (responseEnd (streamSt 3 [1, 2, 3] [[1, 2, 3]] (some [9]) 3
            none [none])) [Ev.read none, Ev.abortEv] = true →
          (run (responseEnd (streamSt 3 [1, 2, 3] [[1, 2, 3]] (some [9]) 3
            none [none])) [Ev.read none, Ev.abortEv]).endCount =
          (streamSt 3 [1, 2, 3] [[1, 2, 3]] (some [9]) 3 none
            [none]).endCount))
    ∧ ((responseEnd (streamSt 3 [1] [[1]] none 1 none [none])).endCount =
        (streamSt 3 [1] [[1]] none 1 none [none]).endCount + 1
      ∧ (responseEnd (streamSt 3 [1] [[1]] none 1 none [none])).errCount =
        (streamSt 3 [1] [[1]] none 1 none [none]).errCount
      ∧ (responseEnd (streamSt 3 [1] [[1]] none 1 none [none])).error =
        (streamSt 3 [1] [[1]] none 1 none [none]).error) :=
  ⟨(claim4_checksum_enforcement
      (streamSt 3 [1, 2, 3] [[1, 2, 3]] (some [9]) 3 none [none]) 3 [9]
      [Ev.read none, Ev.abortEv] rfl (by decide) rfl rfl rfl
      (fun _ => rfl)).1 rfl (by decide),
   (claim4_checksum_enforcement
      (streamSt 3 [1] [[1]] none 1 none [none]) 1 [9]
      [Ev.read none, Ev.abortEv] rfl (by decide) rfl rfl rfl
      (fun _ => rfl)).2 rfl⟩

theorem abortSafe_step (s : St) (e : Ev) (h : AbortSafe s)
    (hok : evOk s e = true) :
    AbortSafe (step s e) ∧ (step s e).endCount = s.endCount
    ∧ (step s e).pushed = s.pushed := by
  obtain ⟨hab, hrd, hrc, hwr⟩ := h
  cases e with
  | read b =>
      have hs : step s (Ev.read b) = s := by simp [step, readFn, hab]
      rw [hs]; exact ⟨⟨hab, hrd, hrc, hwr⟩, rfl, rfl⟩
  | getCb r =>
      cases r with
      | some e1 =>
          have hs : step s (Ev.getCb (some e1)) =
              { s with getOutstanding := false, reading := false,
                       error := some (Err.conn e1),
                       errCount := s.errCount + 1,
                       reqCanceled := s.reqCanceled || s.hasRequest,
                       respDestroyed := s.respDestroyed || s.hasResponse } := by
            simp [step, getCbFn, internalError, stopAndCleanUp]
          rw [hs]
          refine ⟨⟨hab, fun hresp => ?_, fun hres => ?_, hwr⟩, rfl, rfl⟩
          · simp only [] at hresp ⊢; simp [hrd hresp]
          · simp only [] at hres ⊢; simp [hrc hres]
      | none =>
          have hs : step s (Ev.getCb none) =
              { s with getOutstanding := false, hasRequest := true,
                       requestPending := false, reqCanceled := true,
                       respDestroyed := s.respDestroyed || s.hasResponse } := by
            simp [step, getCbFn, hab, stopAndCleanUp]
          rw [hs]
          refine ⟨⟨hab, fun hresp => ?_, fun _ => rfl, hwr⟩, rfl, rfl⟩
          simp only [] at hresp ⊢; simp [hrd hresp]
  | result r b =>
      cases r with
      | inl f =>
          by_cases hcnd : (retryableB f = true ∧ 0 < s.retriesLeft)
          · have hs : step s (Ev.result (Sum.inl f) b) =
                { s with resultOutstanding := false, hasRequest := false,
                         retriesLeft := s.retriesLeft - 1,
                         retryScheduled := true } := by
              simp [step, resultFn, hcnd.1, hcnd.2]
            rw [hs]
            refine ⟨⟨hab, hrd, fun hres => by simp at hres, hwr⟩, rfl, rfl⟩
          · have hcnd2 : ¬ (retryableB f = true ∧
                0 < ({ s with resultOutstanding := false } : St).retriesLeft) :=
              hcnd
            have hs : step s (Ev.result (Sum.inl f) b) =
                { s with resultOutstanding := false, reading := false,
                         error := some (Err.http f.statusCode f.id),
                         errCount := s.errCount + 1,
                         reqCanceled := s.reqCanceled || s.hasRequest,
                         respDestroyed := s.respDestroyed || s.hasResponse } := by
              simp only [step, resultFn]
              rw [if_neg hcnd2]
              simp [internalError, stopAndCleanUp]
            rw [hs]
            refine ⟨⟨hab, fun hresp => ?_, fun hres => by simp at hres, hwr⟩,
              rfl, rfl⟩
            simp only [] at hresp ⊢; simp [hrd hresp]
      | inr hdr =>
          exfalso
          simp only [evOk, Bool.and_eq_true, Bool.not_eq_true'] at hok
          exact absurd (hrc hok.1) (by simp [hok.2])
  | retryTimer =>
      have hs : step s Ev.retryTimer =
          { s with retryScheduled := false, reading := false } := by
        simp [step, makeRequest, hab]
      rw [hs]
      exact ⟨⟨hab, hrd, hrc, hwr⟩, rfl, rfl⟩
  | readable b =>
      exfalso
      simp only [evOk, Bool.and_eq_true, Bool.not_eq_true'] at hok
      exact absurd (hrd (hwr hok.1.1)) (by simp [hok.1.2])
  | srcEnd =>
      exfalso
      simp only [evOk, Bool.and_eq_true, Bool.not_eq_true'] at hok
      exact absurd (hrd hok.1.1) (by simp [hok.1.2])
  | abortEv =>
      have hs : step s Ev.abortEv = s := by simp [step, abortFn, hab]
      rw [hs]; exact ⟨⟨hab, hrd, hrc, hwr⟩, rfl, rfl⟩

theorem abortSafe_run (tr : List Ev) :
    ∀ s : St, AbortSafe s → wfB s tr = true →
    AbortSafe (run s tr) ∧ (run s tr).endCount = s.endCount
    ∧ (run s tr).pushed = s.pushed := by
  induction tr with
  | nil => intro s h _; exact ⟨h, rfl, rfl⟩
  | cons e tr ih =>
      intro s h hwf
      simp only [wfB, Bool.and_eq_true] at hwf
      have hstep := abortSafe_step s e h hwf.1
      have hrec := ih (step s e) hstep.1 hwf.2
      exact ⟨hrec.1, hrec.2.1.trans hstep.2.1, hrec.2.2.trans hstep.2.2⟩

theorem abortSafe_of_abort (s : St) (h : Inv s) :
    AbortSafe (step s Ev.abortEv) := by
  by_cases hab : s.aborted = true
  · have hs : step s Ev.abortEv = s := by simp [step, abortFn, hab]
    rw [hs]
    exact ⟨hab, (h.abort_locked hab).1,
      fun hro => (h.abort_locked hab).2 (h.res_req hro), h.wait_resp⟩
  · have hs : step s Ev.abortEv =
        { s with aborted := true,
                 reqCanceled := s.reqCanceled || s.hasRequest,
                 respDestroyed := s.respDestroyed || s.hasResponse } := by
      simp [step, abortFn, hab, stopAndCleanUp]
    rw [hs]
    refine ⟨rfl, fun hresp => ?_, fun hro => ?_, h.wait_resp⟩
    · simp only [] at hresp ⊢; simp [hresp]
    · simp only [] at hro ⊢; simp [h.res_req hro]

/-- Claim C8 (amended): calling abort at any point results in no further
data chunks and no end notification beyond those already delivered, along
any well-formed continuation, and a second abort call is a no-op on the
state.  The original claim also asserted that no further error notification
can be delivered; that part fails on the code (see the counterexample): a
`client.get` issued before the abort and failing after it still surfaces an
error. -/
theorem claim8_abort_silence (pol : Nat) (tr1 tr2 : List Ev)
    (hwf : wfB (init pol) ((tr1 ++ [Ev.abortEv]) ++ tr2) = true) :
    (run (init pol) ((tr1 ++ [Ev.abortEv]) ++ tr2)).pushed =
      (run (init pol) (tr1 ++ [Ev.abortEv])).pushed
    ∧ (run (init pol) ((tr1 ++ [Ev.abortEv]) ++ tr2)).endCount =
      (run (init pol) (tr1 ++ [Ev.abortEv])).endCount
    ∧ step (run (init pol) ((tr1 ++ [Ev.abortEv]) ++ tr2)) Ev.abortEv =
      run (init pol) ((tr1 ++ [Ev.abortEv]) ++ tr2) := by
  rw [wfB_append, Bool.and_eq_true] at hwf
  have hwf1 := hwf.1
  rw [wfB_append, Bool.and_eq_true] at hwf1
  have hInv1 : Inv (run (init pol) tr1) :=
    inv_run tr1 (init pol) (inv_init pol) hwf1.1
  have habort : run (init pol) (tr1 ++ [Ev.abortEv]) =
      step (run (init pol) tr1) Ev.abortEv := by
    rw [run_append]; rfl
  have hsafe : AbortSafe (run (init pol) (tr1 ++ [Ev.abortEv])) := by
    rw [habort]; exact abortSafe_of_abort (run (init pol) tr1) hInv1
  have hfull := abortSafe_run tr2 (run (init pol) (tr1 ++ [Ev.abortEv]))
    hsafe hwf.2
  rw [run_append (init pol) (tr1 ++ [Ev.abortEv]) tr2]
  refine ⟨hfull.2.2, hfull.2.1, ?_⟩
  simp [step, abortFn, hfull.1.1]

/-- Witness for claim C8: a stream aborted right after the first demand
signal; the surviving request then fails, and still no data or end is
delivered and a second abort is a no-op. -/
theorem claim8_abort_silence_witness :
    (run (init 3) (([Ev.read none] ++ [Ev.abortEv]) ++
      [Ev.getCb (some 0)])).pushed =
      (run (init 3) ([Ev.read none] ++ [Ev.abortEv])).pushed
    ∧ (run (init 3) (([Ev.read none] ++ [Ev.abortEv]) ++
        [Ev.getCb (some 0)])).endCount =
      (run (init 3) ([Ev.read none] ++ [Ev.abortEv])).endCount
    ∧ step (run (init 3) (([Ev.read none] ++ [Ev.abortEv]) ++
        [Ev.getCb (some 0)])) Ev.abortEv =
      run (init 3) (([Ev.read none] ++ [Ev.abortEv]) ++
        [Ev.getCb (some 0)]) :=
  claim8_abort_silence 3 [Ev.read none] [Ev.getCb (some 0)] (by decide)

/-- Counterexample for claim C8 as stated: "no further error notifications
after abort" is false.  The consumer demands data, a `client.get` is
issued, the stream is aborted (nothing to cancel: the request handle does
not exist yet), and then the get callback reports a connection failure: the
error branch of the callback has no abort guard and emits the error event
after the abort. -/
theorem claim8_abort_silence_counterexample :
    wfB (init 3) [Ev.read none, Ev.abortEv, Ev.getCb (some 0)] = true
    ∧ (run (init 3) [Ev.read none, Ev.abortEv]).aborted = true
    ∧ (run (init 3) [Ev.read none, Ev.abortEv]).errCount = 0
    ∧ (run (init 3)
        [Ev.read none, Ev.abortEv, Ev.getCb (some 0)]).errCount = 1 := by
  decide

end HttpStream
